import Mathlib

/-!
Verification of the menu-tree / callback-dispatch library (`telegram-inline-menu`).

The development shallowly embeds the TypeScript sources:
  * `src/change.enum.ts`      — the change bitset constants,
  * `src/menu-builder.ts`     — `MenuBuilder` (tree construction, path registry,
                                `getChildByPath`, `navigation`, `toMenu`, value stack,
                                `_detach`/`_attach`),
  * `src/menu-item-builder.ts`— `MenuItemBuilder` (property setters, `toMenuItem`),
  * `src/callback-handler.ts` — `CallbackQueryHandler` (event lookup and
                                `execButtonAction`),
  * `src/helpers.ts`          — `isButtonActionResultLike`.

JavaScript strings are modelled as `List Char` (named `JStr`) where string
surgery matters (paths, registries), and as Lean `String` elsewhere.
JavaScript dictionaries are association lists in which an insertion shadows the
previous binding and lookup returns the most recent one, matching last-write-wins
dictionary assignment.  JavaScript `%` on numbers (for integers) is the
truncated remainder, i.e. `Int.tmod`.
-/

namespace TgMenu

/-! ## Change bitset (src/change.enum.ts)

`None = 0`, `Text = 1 << 0`, `Visibility = 1 << 1`, `Layout = 1 << 2`,
`Draw = 1 << 3`, `Update = 1 << 4`. -/

def ChangeNone : Nat := 0
def ChangeText : Nat := 1
def ChangeVisibility : Nat := 2
def ChangeLayout : Nat := 4
def ChangeDraw : Nat := 8
def ChangeUpdate : Nat := 16

/-! ## Numeric navigation targets (src/menu-builder.ts, `navigation`, lines 574-589)

```
let index = value
if (index < 0 && index >= -that.lastMenuIndex) {
  index %= that.lastMenuIndex
  if (index < 0) { index += that.lastMenuIndex }
}
const menu = that._menuByIndex[ index ]
if (!menu) {
  throw new Error(`Given menu index was out of range: (value), menu count: (lastMenuIndex+1)`)
}
```
`lastMenuIndex` is the highest creation-order index in the tree, i.e.
`treeSize - 1`.  JS `%` is the truncated remainder `Int.tmod`. -/

/-- JS `%` on integers: truncated remainder. -/
def jsRem (a b : Int) : Int := Int.tmod a b

/-- The index wrapping performed by the numeric branch of the `navigate`
`onPress` closure (menu-builder.ts lines 575-579). -/
def navResolveIndex (lastMenuIndex : Int) (value : Int) : Int :=
  if value < 0 ∧ -lastMenuIndex ≤ value then
    let i := jsRem value lastMenuIndex
    if i < 0 then i + lastMenuIndex else i
  else value

/-- The error message thrown when the resolved index holds no menu
(menu-builder.ts line 584). -/
def navIndexErrorMsg (lastMenuIndex : Int) (value : Int) : String :=
  s!"Given menu index was out of range: {value}, menu count: {lastMenuIndex + 1}"

/-- The numeric branch of the navigation button press (menu-builder.ts lines
574-589): wrap a negative in-range index, then read `_menuByIndex[index]`;
a missing entry (including a still-negative index) throws. -/
def navTargetByIndex {α : Type} (menuByIndex : List α) (lastMenuIndex : Int)
    (value : Int) : Except String α :=
  let index := navResolveIndex lastMenuIndex value
  match (if 0 ≤ index then menuByIndex.get? index.toNat else none) with
  | some m => Except.ok m
  | none => Except.error (navIndexErrorMsg lastMenuIndex value)

/-- For `-L ≤ i < 0` the truncated remainder used by JS `%` keeps `i`
(or yields `0` at `i = -L`). -/
theorem tmod_of_neg_in_range (L i : Int) (h1 : i < 0) (h2 : -L ≤ i) :
    Int.tmod i L = if i = -L then 0 else i := by
  rw [Int.tmod_def]
  by_cases h : i = -L
  · subst h
    rw [show (-L).tdiv L = -(L.tdiv L) from Int.neg_tdiv L L]
    rw [Int.tdiv_self (by omega)]
    simp
  · have hlt : -i < L := by omega
    have hz : i.tdiv L = 0 := by
      have hneg := Int.neg_tdiv i L
      have h0 : (-i).tdiv L = 0 := Int.tdiv_eq_zero_of_lt (by omega) hlt
      omega
    simp [hz, h]

/-- Claim C2 (amended): the wrap of a negative navigation index is performed
modulo `lastMenuIndex = treeSize - 1`, not modulo `treeSize`: for
`-(treeSize-1) ≤ i ≤ -1` the button resolves the target to absolute index
`(treeSize - 1) + i`, and an index that resolves to no node (including a
still-negative one) raises an error naming the given index and the menu count
`lastMenuIndex + 1 = treeSize`. -/
theorem C2_negative_index_wraps_by_lastMenuIndex {α : Type} (L i : Int)
    (xs : List α) (h1 : i < 0) (h2 : -L ≤ i) :
    navResolveIndex L i = L + i ∧
    navTargetByIndex xs L i =
      (match xs.get? (L + i).toNat with
       | some m => Except.ok m
       | none => Except.error (navIndexErrorMsg L i)) := by
  have hwrap : navResolveIndex L i = L + i := by
    unfold navResolveIndex jsRem
    rw [if_pos ⟨h1, h2⟩]
    rw [tmod_of_neg_in_range L i h1 h2]
    by_cases h : i = -L
    · simp [h]
    · rw [if_neg h, if_pos h1]
      omega
  refine ⟨hwrap, ?_⟩
  unfold navTargetByIndex
  rw [hwrap]
  simp only [if_pos (by omega : (0:Int) ≤ L + i)]

/-- Witness for C2: in a tree of 4 nodes (`lastMenuIndex = 3`), the navigation
target `-1` resolves to absolute index `2` and selects the third entry of
`_menuByIndex`. -/
theorem C2_negative_index_wraps_by_lastMenuIndex_witness :
    ((-1 : Int) < 0 ∧ -(3 : Int) ≤ -1) ∧
    navResolveIndex 3 (-1) = 3 + (-1) ∧
    navTargetByIndex ([10, 11, 12, 13] : List Nat) 3 (-1) = Except.ok 12 := by
  refine ⟨⟨by decide, by decide⟩, ?_⟩
  have h := C2_negative_index_wraps_by_lastMenuIndex (α := Nat) 3 (-1)
    [10, 11, 12, 13] (by decide) (by decide)
  exact ⟨h.1, by rw [h.2]; rfl⟩

/-- Counterexample to C2 as stated: in a tree with 4 nodes the claim's formula
`treeSize + i (mod treeSize)` sends `i = -1` to index `3`, yet the code (and the
claim's own worked example) resolves `-1` to index `2`: the wrap uses
`lastMenuIndex = treeSize - 1`, not `treeSize`. -/
theorem C2_counterexample :
    navTargetByIndex ([0, 1, 2, 3] : List Nat) 3 (-1) = Except.ok 2 ∧
    (4 + (-1)) % (4 : Int) = 3 ∧
    navResolveIndex 3 (-1) ≠ (4 + (-1)) % (4 : Int) := by
  refine ⟨rfl, by decide, by decide⟩

/-! ## The menu tree, its registries and path resolution
(src/menu-builder.ts: constructor lines 278-312, `path` getter lines 103-106,
`getChildByPath` lines 212-258, `getMenuItemByPath` lines 267-276)

JS strings are `List Char` here.  The tree is an arena: `nodes` in creation
order (this is `_menuByIndex`), each node holding its `id`, `_text`, parent
index, `rootMenu` index, the `_path` override (set to `"/"` by the constructor
when the id is `"/"`), and the ids of its buttons.  `_menuById` / `_menuByPath`
are association lists whose most recent binding wins, which is exactly what a
JS dictionary assignment followed by lookup observes. -/

abbrev JStr := List Char

/-- Lookup in a JS dictionary modelled as an association list (latest binding
first). -/
def lookupFirst (l : List (JStr × Nat)) (k : JStr) : Option Nat :=
  match l with
  | [] => none
  | (k', v) :: rest => if k' = k then some v else lookupFirst rest k

structure MNode where
  id : JStr
  text : JStr
  parent : Option Nat
  root : Nat
  pathOverride : Option JStr
  buttons : List JStr := []
deriving Repr, DecidableEq

structure MTree where
  nodes : List MNode
  menuById : List (JStr × Nat)
  menuByPath : List (JStr × Nat)
deriving Repr, DecidableEq

/-- The `path` getter (menu-builder.ts 103-106):
`if (this._path) return this._path; return (this._parent?.path ?? '/') + this.id + '/'`.
The recursion over the parent chain is rendered with explicit fuel; in a tree
built by the constructor every parent index is smaller than the child's, so
fuel `i + 1` always suffices (`pathFrom_fuel_ge`). -/
def pathFrom (nodes : List MNode) : Nat → Nat → JStr
  | 0, _ => []
  | fuel + 1, i =>
    match nodes.get? i with
    | none => []
    | some n =>
      match n.pathOverride with
      | some p => p
      | none =>
        match n.parent with
        | none => '/' :: (n.id ++ ['/'])
        | some p => pathFrom nodes fuel p ++ (n.id ++ ['/'])

def pathOf (nodes : List MNode) (i : Nat) : JStr := pathFrom nodes (i + 1) i

/-- Error thrown by the constructor on a duplicate id (menu-builder.ts 299-301). -/
def dupIdMsg (id : JStr) : JStr :=
  "Menu with id \"".toList ++ id ++ "\" is previously defined".toList

/-- `new MenuBuilder(text, id)` with no parent: fresh registries, the node
becomes index 0 and its own root (menu-builder.ts 278-312).  The duplicate-id
check can never fire against a fresh registry. -/
def mkRoot (text id : JStr) : MTree :=
  let n : MNode := { id := id, text := text, parent := none, root := 0,
                     pathOverride := if id = ['/'] then some ['/'] else none }
  { nodes := [n], menuById := [(id, 0)], menuByPath := [(pathOf [n] 0, 0)] }

/-- The `MNode` corresponding to `new MenuBuilder(text, id, parent, ...)`. -/
def childNode (t : MTree) (parentIdx : Nat) (text id : JStr) : MNode :=
  { id := id, text := text, parent := some parentIdx,
    root := match t.nodes.get? parentIdx with
      | some p => p.root
      | none => t.nodes.length,
    pathOverride := if id = ['/'] then some ['/'] else none }

/-- The registrations performed at the end of the constructor (309-311). -/
def addChildOk (t : MTree) (parentIdx : Nat) (text id : JStr) : MTree :=
  let idx := t.nodes.length
  let nodes' := t.nodes ++ [childNode t parentIdx text id]
  { nodes := nodes',
    menuById := (id, idx) :: t.menuById,
    menuByPath := (pathOf nodes' idx, idx) :: t.menuByPath }

/-- `new MenuBuilder(text, id, parent, ...)` as performed by `menu()`
(menu-builder.ts 469 calling the constructor 278-312): the parent's registries
are shared; a duplicate id throws *before* any registration; otherwise the node
is appended to `_menuByIndex` and bound in `_menuById` and, under its `path`,
in `_menuByPath` (a path collision silently overwrites the earlier binding). -/
def addChild (t : MTree) (parentIdx : Nat) (text id : JStr) : Except JStr MTree :=
  if (lookupFirst t.menuById id).isSome then Except.error (dupIdMsg id)
  else Except.ok (addChildOk t parentIdx text id)

/-- Trees reachable through the public builder API: a root constructed
directly, extended by `menu()` calls (each of which invokes the child
constructor on an existing parent node). -/
inductive Built : MTree → Prop where
  | root (text id : JStr) : Built (mkRoot text id)
  | child {t t' : MTree} (pIdx : Nat) (text id : JStr) :
      Built t → pIdx < t.nodes.length → addChild t pIdx text id = Except.ok t' →
      Built t'

/-! ### `getChildByPath` (menu-builder.ts 212-258) -/

/-- Normalization prefix/suffix step (lines 213-214):
`if (!path.startsWith('/')) path = '/' + path; if (!path.endsWith('/')) path += '/'`. -/
def normalizePath (p : JStr) : JStr :=
  let p1 := if p.head? = some '/' then p else '/' :: p
  if p1.getLast? = some '/' then p1 else p1 ++ ['/']

/-- JS `String.prototype.indexOf(pattern)`: first index at which `pat` occurs
as a substring (the empty pattern occurs at 0). -/
def indexOfSub (hay pat : JStr) : Option Nat :=
  match hay with
  | [] => if pat = [] then some 0 else none
  | _ :: t => if pat.isPrefixOf hay then some 0 else (indexOfSub t pat).map (· + 1)

/-- JS `String.prototype.split(sep)` for a single-character separator. -/
def splitOnChar (c : Char) : JStr → List JStr
  | [] => [[]]
  | x :: xs =>
    if x = c then [] :: splitOnChar c xs
    else
      match splitOnChar c xs with
      | s :: rest => (x :: s) :: rest
      | [] => [[x]]

/-- `_children` of a node: the builders pushed by `menu()` in creation order;
`undefined` until the first child is added (modelled as `none` for an empty
list — in a constructor-built tree `_children` is `undefined` or non-empty). -/
def childrenOf (t : MTree) (p : Nat) : List Nat :=
  (List.range t.nodes.length).filter (fun i =>
    match t.nodes.get? i with
    | some n => n.parent = some p
    | none => false)

def childrenOpt (t : MTree) (p : Nat) : Option (List Nat) :=
  match childrenOf t p with
  | [] => none
  | l => some l

/-- The inner `for (const child of children)` of `getChildByPath` (239-245):
remembers the *last* child whose id matches the segment (the loop does not
break; ids are unique in practice so at most one matches). -/
def lastIdMatch (t : MTree) (cs : List Nat) (seg : JStr) : Option Nat :=
  (cs.filter (fun c =>
    match t.nodes.get? c with
    | some n => n.id = seg
    | none => false)).getLast?

/-- The `do ... while (children)` descent of `getChildByPath` (230-249):
`segments.shift()` of nothing (or of an empty segment) returns the node reached
so far; a segment matching no child returns `undefined`; descending into a
child without `_children` exits the loop and returns that child. -/
def walkChildren (t : MTree) : List JStr → Option (List Nat) → Nat → Option Nat
  | _, none, _ => none
  | [], some _, current => some current
  | seg :: rest, some cs, current =>
    if seg = [] then some current
    else
      match lastIdMatch t cs seg with
      | none => none
      | some c =>
        match childrenOpt t c with
        | none => some c
        | some cc => walkChildren t rest (some cc) c

/-- `getChildByPath` (menu-builder.ts 212-258).  The recursion into the parent
(line 253) strictly ascends the tree, rendered with explicit fuel. -/
def getChildByPathFuel (t : MTree) : Nat → Nat → JStr → Option Nat
  | 0, _, _ => none
  | fuel + 1, self, path0 =>
    let p := normalizePath path0
    match lookupFirst t.menuByPath p with
    | some i => some i
    | none =>
      if p = ['/'] then
        match t.nodes.get? self with
        | some n => some n.root
        | none => none
      else
        let thisPath := pathOf t.nodes self
        match indexOfSub p thisPath with
        | some 0 =>
          let rest := p.drop thisPath.length
          let segments := splitOnChar '/' rest
          walkChildren t segments (childrenOpt t self) self
        | _ =>
          match t.nodes.get? self with
          | some n =>
            match n.parent with
            | some par =>
              let parentPath := pathOf t.nodes par
              if (indexOfSub parentPath p).isSome || (indexOfSub p parentPath).isSome
              then getChildByPathFuel t fuel par p
              else none
            | none => none
          | none => none

def getChildByPath (t : MTree) (self : Nat) (p : JStr) : Option Nat :=
  getChildByPathFuel t (t.nodes.length + 1) self p

/-- JS `String.prototype.lastIndexOf` for a single character. -/
def lastIndexOfChar (c : Char) : JStr → Option Nat
  | [] => none
  | x :: xs =>
    match lastIndexOfChar c xs with
    | some k => some (k + 1)
    | none => if x = c then some 0 else none

/-- `getMenuItemByPath` (menu-builder.ts 267-276): split at the last `/`
(`lastIndexOf` yields `-1` when absent, making the menu part empty and the item
part the whole string), resolve the menu part with `getChildByPath`, then index
the menu's buttons with the item part.  Returns the owning menu's index and the
button id. -/
def getMenuItemByPath (t : MTree) (self : Nat) (p : JStr) : Option (Nat × JStr) :=
  let sepPlus1 := match lastIndexOfChar '/' p with
    | some k => k + 1
    | none => 0
  let menuPath := p.take sepPlus1
  let itemPath := p.drop sepPlus1
  match getChildByPath t self menuPath with
  | none => none
  | some m =>
    match t.nodes.get? m with
    | some n => if itemPath ∈ n.buttons then some (m, itemPath) else none
    | none => none

/-! ### Invariants of constructor-built trees -/

/-- Every node's parent was constructed before it. -/
def ParentLt (nodes : List MNode) : Prop :=
  ∀ i n, nodes.get? i = some n → ∀ p, n.parent = some p → p < i

/-- `_path` is exactly the constructor's override for the id `"/"`. -/
def OverrideOk (nodes : List MNode) : Prop :=
  ∀ n ∈ nodes, n.pathOverride = if n.id = ['/'] then some ['/'] else none

/-- Ids that are non-empty and slash-free (the hypothesis of the amended C1). -/
def ValidIds (nodes : List MNode) : Prop :=
  ∀ n ∈ nodes, n.id ≠ [] ∧ '/' ∉ n.id

def IdsNodup (nodes : List MNode) : Prop := (nodes.map (fun n => n.id)).Nodup

/-- `_menuById` holds exactly the constructed ids. -/
def IdLookupComplete (t : MTree) : Prop :=
  ∀ s, (lookupFirst t.menuById s).isSome ↔ s ∈ t.nodes.map (fun n => n.id)

/-- `_menuByPath` sends every node's path to that node. -/
def PathsReg (t : MTree) : Prop :=
  ∀ i, i < t.nodes.length → lookupFirst t.menuByPath (pathOf t.nodes i) = some i

theorem lookupFirst_isSome_iff (l : List (JStr × Nat)) (k : JStr) :
    (lookupFirst l k).isSome ↔ k ∈ l.map Prod.fst := by
  induction l with
  | nil => simp [lookupFirst]
  | cons h t ih =>
    obtain ⟨k', v⟩ := h
    by_cases hk : k' = k <;> simp [lookupFirst, hk, ih]
    exact fun h => (hk h.symm).elim

/-- The keys of `_menuById` are the constructed ids, most recent first. -/
def IdKeys (t : MTree) : Prop :=
  t.menuById.map Prod.fst = (t.nodes.map (fun n => n.id)).reverse

/-- Basic structural invariants hold for every tree reachable through the
builder API (no assumption on the ids). -/
theorem built_basic_inv {t : MTree} (hB : Built t) :
    ParentLt t.nodes ∧ OverrideOk t.nodes ∧ IdKeys t ∧ IdsNodup t.nodes := by
  induction hB with
  | root text id =>
    refine ⟨?_, ?_, ?_, ?_⟩
    · intro i n hget p hp
      match i, hget with
      | 0, hget =>
        simp only [mkRoot, List.get?] at hget
        cases hget
        simp at hp
    · intro n hn
      simp only [mkRoot, List.mem_singleton] at hn
      subst hn; rfl
    · simp [mkRoot, IdKeys]
    · simp [mkRoot, IdsNodup]
  | child pIdx text id hBt hlt heq ih =>
    obtain ⟨hPLt, hOv, hKeys, hNd⟩ := ih
    rename_i t t'
    simp only [addChild] at heq
    by_cases hdup : (lookupFirst t.menuById id).isSome
    · simp [hdup] at heq
    · simp only [hdup, Bool.false_eq_true, if_false, Except.ok.injEq] at heq
      subst heq
      have hidnew : id ∉ t.nodes.map (fun n => n.id) := by
        intro hmem
        apply hdup
        rw [lookupFirst_isSome_iff, hKeys, List.mem_reverse]
        exact hmem
      refine ⟨?_, ?_, ?_, ?_⟩
      · intro i n hget p hp
        simp only [addChildOk] at hget
        by_cases hi : i < t.nodes.length
        · rw [List.get?_append hi] at hget
          exact hPLt i n hget p hp
        · have : i = t.nodes.length := by
            by_contra hne
            have hgt : t.nodes.length + 1 ≤ i := by
              have := List.get?_eq_some.mp hget
              obtain ⟨hlen, -⟩ := this
              simp at hlen
              omega
            rw [List.get?_eq_none.mpr (by simpa using hgt)] at hget
            exact Option.noConfusion hget
          subst this
          rw [List.get?_concat_length] at hget
          cases hget
          simp only [childNode] at hp
          cases hp
          omega
      · intro n hn
        simp only [addChildOk] at hn
        rw [List.mem_append] at hn
        rcases hn with hn | hn
        · exact hOv n hn
        · simp only [List.mem_singleton] at hn
          subst hn; rfl
      · simp only [IdKeys, addChildOk, childNode, List.map_cons, List.map_append,
          List.reverse_append]
        simp only [IdKeys] at hKeys
        simp [hKeys]
      · simp only [IdsNodup, addChildOk, childNode, List.map_append, List.map_cons,
          List.map_nil]
        rw [List.nodup_append]
        refine ⟨hNd, List.nodup_singleton _, ?_⟩
        intro a ha hb
        simp only [List.mem_singleton] at hb
        subst hb
        exact hidnew ha

/-- Unfolding equation of `pathFrom` when the node exists. -/
theorem pathFrom_succ {nodes : List MNode} {i : Nat} {n : MNode}
    (hget : nodes.get? i = some n) (fuel : Nat) :
    pathFrom nodes (fuel + 1) i =
      (match n.pathOverride with
       | some p => p
       | none =>
         match n.parent with
         | none => '/' :: (n.id ++ ['/'])
         | some p => pathFrom nodes fuel p ++ (n.id ++ ['/'])) := by
  simp only [pathFrom, hget]

theorem pathFrom_parent {nodes : List MNode} {i p : Nat} {n : MNode}
    (hget : nodes.get? i = some n) (hov : n.pathOverride = none)
    (hpar : n.parent = some p) (fuel : Nat) :
    pathFrom nodes (fuel + 1) i = pathFrom nodes fuel p ++ (n.id ++ ['/']) := by
  rw [pathFrom_succ hget fuel, hov, hpar]

theorem pathFrom_root {nodes : List MNode} {i : Nat} {n : MNode}
    (hget : nodes.get? i = some n) (hov : n.pathOverride = none)
    (hpar : n.parent = none) (fuel : Nat) :
    pathFrom nodes (fuel + 1) i = '/' :: (n.id ++ ['/']) := by
  rw [pathFrom_succ hget fuel, hov, hpar]

/-- The fuel in `pathFrom` is irrelevant once it exceeds the index (parents
strictly decrease). -/
theorem pathFrom_fuel_ge {nodes : List MNode} (hP : ParentLt nodes) :
    ∀ i fuel, i < fuel → pathFrom nodes fuel i = pathOf nodes i := by
  intro i
  induction i using Nat.strong_induction_on with
  | _ i ih =>
    intro fuel hfuel
    match fuel, hfuel with
    | f + 1, hfuel =>
      show pathFrom nodes (f + 1) i = pathFrom nodes (i + 1) i
      cases hget : nodes.get? i with
      | none => simp only [pathFrom, hget]
      | some n =>
        rw [pathFrom_succ hget f, pathFrom_succ hget i]
        cases hov : n.pathOverride with
        | some p => rfl
        | none =>
          cases hpar : n.parent with
          | none => rfl
          | some p =>
            have hpi : p < i := hP i n hget p hpar
            simp only [ih p hpi f (by omega), ih p hpi i hpi]

/-- Appending nodes does not disturb the paths of existing nodes. -/
theorem pathFrom_append {nodes : List MNode} (l : List MNode) (hP : ParentLt nodes) :
    ∀ fuel i, i < nodes.length → pathFrom (nodes ++ l) fuel i = pathFrom nodes fuel i := by
  intro fuel
  induction fuel with
  | zero => intro i _; rfl
  | succ f ihf =>
    intro i hi
    have hget2 : (nodes ++ l).get? i = nodes.get? i := List.get?_append hi
    cases hget : nodes.get? i with
    | none => simp only [pathFrom, hget2, hget]
    | some n =>
      rw [pathFrom_succ (hget2.trans hget) f, pathFrom_succ hget f]
      cases hov : n.pathOverride with
      | some p => rfl
      | none =>
        cases hpar : n.parent with
        | none => rfl
        | some p =>
          have hpi : p < i := hP i n hget p hpar
          simp only [ihf p (by omega)]

theorem pathOf_append {nodes : List MNode} (l : List MNode) (hP : ParentLt nodes)
    (i : Nat) (hi : i < nodes.length) :
    pathOf (nodes ++ l) i = pathOf nodes i :=
  pathFrom_append l hP (i + 1) i hi

/-- Shape of a node path under valid ids: a non-empty prefix that starts and
ends with `/`, followed by the node's id and a final `/`. -/
theorem pathOf_shape {nodes : List MNode} (hP : ParentLt nodes)
    (hO : OverrideOk nodes) (hV : ValidIds nodes) :
    ∀ i n, nodes.get? i = some n →
      ∃ q, pathOf nodes i = q ++ (n.id ++ ['/']) ∧ q ≠ [] ∧
        q.getLast? = some '/' ∧ q.head? = some '/' := by
  intro i
  induction i using Nat.strong_induction_on with
  | _ i ih =>
    intro n hget
    have hmem : n ∈ nodes := List.get?_mem hget
    have hov : n.pathOverride = none := by
      rw [hO n hmem, if_neg]
      intro hid
      exact (hV n hmem).2 (hid ▸ List.mem_singleton_self '/')
    cases hpar : n.parent with
    | none =>
      have : pathOf nodes i = '/' :: (n.id ++ ['/']) := pathFrom_root hget hov hpar i
      refine ⟨['/'], by rw [this]; rfl, by simp, rfl, rfl⟩
    | some p =>
      have hpi : p < i := hP i n hget p hpar
      have hplen : p < nodes.length := by
        have := (List.get?_eq_some.mp hget).1
        omega
      cases hgetp : nodes.get? p with
      | none =>
        rw [List.get?_eq_none] at hgetp
        omega
      | some np =>
        obtain ⟨q', hq', hq'ne, hq'last, hq'head⟩ := ih p hpi np hgetp
        have hstep : pathOf nodes i = pathOf nodes p ++ (n.id ++ ['/']) := by
          have := pathFrom_parent hget hov hpar i
          rw [pathFrom_fuel_ge hP p i hpi] at this
          exact this
        refine ⟨pathOf nodes p, hstep, ?_, ?_, ?_⟩
        · rw [hq']
          simp
        · rw [hq', List.getLast?_append]
          rw [show (np.id ++ ['/']).getLast? = some '/' from by
            rw [List.getLast?_concat]]
          rfl
        · rw [hq', List.head?_append_of_ne_nil _ hq'ne]
          exact hq'head

theorem takeWhile_append_of_all {p : Char → Bool} {l₁ : JStr} (l₂ : JStr)
    (h : ∀ x ∈ l₁, p x = true) :
    (l₁ ++ l₂).takeWhile p = l₁ ++ l₂.takeWhile p := by
  induction l₁ with
  | nil => rfl
  | cons x xs ih =>
    simp only [List.cons_append, List.takeWhile_cons, h x (List.mem_cons_self x xs),
      if_true, List.cons.injEq, true_and]
    exact ih (fun y hy => h y (List.mem_cons_of_mem x hy))

theorem takeWhile_head_false {p : Char → Bool} {l : JStr} {x : Char}
    (hx : l.head? = some x) (hpx : p x = false) : l.takeWhile p = [] := by
  cases l with
  | nil => rfl
  | cons y ys =>
    simp only [List.head?_cons, Option.some.injEq] at hx
    subst hx
    simp [List.takeWhile_cons, hpx]

/-- The last slash-free segment of `q ++ a ++ "/"` is `a` when `q` ends with a
slash and `a` is slash-free: paths of valid ids determine the final id. -/
theorem path_last_segment {q a : JStr} (hq : q.getLast? = some '/') (ha : '/' ∉ a) :
    ((q ++ (a ++ ['/'])).reverse.drop 1).takeWhile (fun c => c ≠ '/') = a.reverse := by
  rw [List.reverse_append, List.reverse_append]
  simp only [List.reverse_cons, List.reverse_nil, List.nil_append, List.cons_append,
    List.drop_succ_cons, List.drop_zero]
  rw [takeWhile_append_of_all q.reverse (fun x hx => by
    simp only [ne_eq, decide_eq_true_eq, decide_not]
    rw [List.mem_reverse] at hx
    simp only [Bool.not_eq_true', decide_eq_false_iff_not]
    intro hxeq
    exact ha (hxeq ▸ hx))]
  rw [takeWhile_head_false (x := '/') (by rw [List.head?_reverse]; exact hq) (by simp)]
  simp

/-- Distinct nodes of a valid built tree have distinct paths. -/
theorem pathOf_inj {nodes : List MNode} (hP : ParentLt nodes) (hO : OverrideOk nodes)
    (hV : ValidIds nodes) (hNd : IdsNodup nodes) {i j : Nat}
    (hi : i < nodes.length) (hj : j < nodes.length)
    (heq : pathOf nodes i = pathOf nodes j) : i = j := by
  cases hgi : nodes.get? i with
  | none => rw [List.get?_eq_none] at hgi; omega
  | some ni =>
    cases hgj : nodes.get? j with
    | none => rw [List.get?_eq_none] at hgj; omega
    | some nj =>
      obtain ⟨qi, hqi, _, hqilast, _⟩ := pathOf_shape hP hO hV i ni hgi
      obtain ⟨qj, hqj, _, hqjlast, _⟩ := pathOf_shape hP hO hV j nj hgj
      have hids : ni.id = nj.id := by
        have h1 := path_last_segment hqilast (hV ni (List.get?_mem hgi)).2
        have h2 := path_last_segment hqjlast (hV nj (List.get?_mem hgj)).2
        rw [← hqi] at h1
        rw [← hqj] at h2
        rw [heq, h2] at h1
        exact List.reverse_injective h1.symm
      have hNdm : (nodes.map (fun n => n.id)).Nodup := hNd
      have hget2 : (nodes.map (fun n => n.id)).get? i = (nodes.map (fun n => n.id)).get? j := by
        rw [List.get?_map, List.get?_map, hgi, hgj]
        simp [hids]
      exact List.get?_inj (by simpa using hi) hNdm hget2

/-- The path registry invariant: under valid ids, `_menuByPath` maps every
node's path to that node.  Proved along the construction. -/
theorem built_pathsReg {t : MTree} (hB : Built t) (hV : ValidIds t.nodes) :
    PathsReg t := by
  induction hB with
  | root text id =>
    intro i hi
    simp only [mkRoot] at hi ⊢
    simp only [List.length_singleton] at hi
    have : i = 0 := by omega
    subst this
    simp [lookupFirst]
  | child pIdx text id hBt hlt heq ih =>
    rename_i t t'
    have hB' : Built t' := Built.child pIdx text id hBt hlt heq
    obtain ⟨hPLt', hOv', hKeys', hNd'⟩ := built_basic_inv hB'
    obtain ⟨hPLt, hOv, hKeys, hNd⟩ := built_basic_inv hBt
    simp only [addChild] at heq
    by_cases hdup : (lookupFirst t.menuById id).isSome
    · simp [hdup] at heq
    · simp only [hdup, Bool.false_eq_true, if_false, Except.ok.injEq] at heq
      subst heq
      have hVt : ValidIds t.nodes := by
        intro n hn
        apply hV
        simp only [addChildOk]
        exact List.mem_append_left _ hn
      have hReg := ih hVt
      intro i hi
      simp only [addChildOk, List.length_append, List.length_singleton] at hi
      simp only [addChildOk]
      by_cases hio : i < t.nodes.length
      · -- an old node: its path is unchanged and not shadowed by the new binding
        have hpathsame : pathOf (t.nodes ++ [childNode t pIdx text id]) i
            = pathOf t.nodes i := pathOf_append _ hPLt i hio
        rw [hpathsame]
        simp only [lookupFirst]
        rw [if_neg ?_]
        · exact hReg i hio
        · -- the new node's path differs from every old node's path
          intro hcontra
          rw [hpathsame.symm] at hcontra
          have : t.nodes.length = i :=
            @pathOf_inj (t.nodes ++ [childNode t pIdx text id])
              hPLt' hOv' hV hNd' t.nodes.length i
              (by simp) (by simpa using hio.trans (Nat.lt_succ_self _)) hcontra
          omega
      · -- the new node itself: head binding hit
        have : i = t.nodes.length := by omega
        subst this
        simp [lookupFirst]

theorem normalizePath_head (p : JStr) : (normalizePath p).head? = some '/' := by
  unfold normalizePath
  by_cases h1 : p.head? = some '/'
  · rw [if_pos h1]
    by_cases h2 : p.getLast? = some '/'
    · rw [if_pos h2]; exact h1
    · rw [if_neg h2]
      cases p with
      | nil => simp at h1
      | cons x xs =>
        simp only [List.head?_cons, Option.some.injEq] at h1
        simp [h1]
  · rw [if_neg h1]
    by_cases h2 : (('/' : Char) :: p).getLast? = some '/'
    · rw [if_pos h2]; rfl
    · rw [if_neg h2]; rfl

theorem normalizePath_last (p : JStr) : (normalizePath p).getLast? = some '/' := by
  unfold normalizePath
  by_cases h1 : p.head? = some '/' <;> [rw [if_pos h1]; rw [if_neg h1]] <;>
    (first
      | (by_cases h2 : p.getLast? = some '/'
         · rw [if_pos h2]; exact h2
         · rw [if_neg h2]; exact List.getLast?_concat _)
      | (by_cases h2 : (('/' : Char) :: p).getLast? = some '/'
         · rw [if_pos h2]; exact h2
         · rw [if_neg h2]; exact List.getLast?_concat _))

theorem normalizePath_of_normalized {q : JStr} (h1 : q.head? = some '/')
    (h2 : q.getLast? = some '/') : normalizePath q = q := by
  simp [normalizePath, h1, h2]

theorem normalizePath_idem (p : JStr) :
    normalizePath (normalizePath p) = normalizePath p :=
  normalizePath_of_normalized (normalizePath_head p) (normalizePath_last p)

/-- A registered node's path is already normalized. -/
theorem normalizePath_pathOf {t : MTree} (hB : Built t) (hV : ValidIds t.nodes)
    {i : Nat} (hi : i < t.nodes.length) :
    normalizePath (pathOf t.nodes i) = pathOf t.nodes i := by
  obtain ⟨hPLt, hOv, hKeys, hNd⟩ := built_basic_inv hB
  cases hgi : t.nodes.get? i with
  | none => rw [List.get?_eq_none] at hgi; omega
  | some n =>
    obtain ⟨q, hq, hqne, hqlast, hqhead⟩ := pathOf_shape hPLt hOv hV i n hgi
    have hhead : (pathOf t.nodes i).head? = some '/' := by
      rw [hq, List.head?_append_of_ne_nil _ hqne]; exact hqhead
    have hlast : (pathOf t.nodes i).getLast? = some '/' := by
      rw [hq, List.getLast?_append]
      rw [show (n.id ++ ['/']).getLast? = some '/' from List.getLast?_concat _]
      rfl
    exact normalizePath_of_normalized hhead hlast

/-- Claim C1 (amended): in a tree built through the builder API whose node ids
are non-empty and slash-free, resolving any node's own path string against any
node of the tree returns exactly that node, and resolution first normalizes a
missing leading or trailing slash.  (Without the slash-free restriction the
registry key of a node can be silently overwritten, see the counterexample.) -/
theorem C1_path_resolution_roundtrip (t : MTree) (hB : Built t)
    (hV : ValidIds t.nodes) (self i : Nat) (hi : i < t.nodes.length) :
    getChildByPath t self (pathOf t.nodes i) = some i ∧
    (∀ p, getChildByPath t self p = getChildByPath t self (normalizePath p)) := by
  have hReg := built_pathsReg hB hV
  constructor
  · show getChildByPathFuel t (t.nodes.length + 1) self (pathOf t.nodes i) = some i
    simp only [getChildByPathFuel]
    rw [normalizePath_pathOf hB hV hi, hReg i hi]
  · intro p
    show getChildByPathFuel t (t.nodes.length + 1) self p
        = getChildByPathFuel t (t.nodes.length + 1) self (normalizePath p)
    simp only [getChildByPathFuel]
    rw [normalizePath_idem]

/-- A two-node tree built through the API: root `r` with child menu `a`. -/
def exTreeR : MTree := mkRoot "root text".toList "r".toList

def exTreeRA : MTree :=
  match addChild exTreeR 0 "menu a".toList "a".toList with
  | Except.ok t => t
  | Except.error _ => exTreeR

theorem exTreeRA_built : Built exTreeRA :=
  Built.child (t := exTreeR) 0 "menu a".toList "a".toList
    (Built.root "root text".toList "r".toList) (by decide) (by rfl)

/-- Witness for C1: in the concrete tree `r → a`, the child's path `/r/a/`
resolves to the child from both the root and the child itself. -/
theorem C1_path_resolution_roundtrip_witness :
    ValidIds exTreeRA.nodes ∧
    getChildByPath exTreeRA 0 (pathOf exTreeRA.nodes 1) = some 1 ∧
    getChildByPath exTreeRA 1 (pathOf exTreeRA.nodes 0) = some 0 := by
  refine ⟨by unfold ValidIds; decide, ?_, ?_⟩
  · exact (C1_path_resolution_roundtrip exTreeRA exTreeRA_built
      (by unfold ValidIds; decide) 0 1 (by decide)).1
  · exact (C1_path_resolution_roundtrip exTreeRA exTreeRA_built
      (by unfold ValidIds; decide) 1 0 (by decide)).1

/-- The four-node tree `r`, `a`, `b` (child of `a`), `a/b` (child of `r`): the
builder accepts the slash-containing id and the path of node `a/b` collides
with the path of node `b`. -/
def exBad1 : MTree :=
  match addChild (mkRoot "t".toList "r".toList) 0 "t".toList "a".toList with
  | Except.ok t => t
  | Except.error _ => mkRoot "t".toList "r".toList

def exBad2 : MTree :=
  match addChild exBad1 1 "t".toList "b".toList with
  | Except.ok t => t
  | Except.error _ => exBad1

def exBad3 : MTree :=
  match addChild exBad2 0 "t".toList "a/b".toList with
  | Except.ok t => t
  | Except.error _ => exBad2

/-- Counterexample to C1 as stated: the public builder API accepts the id
`"a/b"`, whose registration under path `/r/a/b/` silently overwrites the
binding of node 2 (`b`), so resolving node 2's own path returns node 3. -/
theorem C1_counterexample :
    addChild exBad2 0 "t".toList "a/b".toList = Except.ok exBad3 ∧
    pathOf exBad3.nodes 2 = "/r/a/b/".toList ∧
    pathOf exBad3.nodes 3 = "/r/a/b/".toList ∧
    getChildByPath exBad3 0 (pathOf exBad3.nodes 2) = some 3 ∧
    some 3 ≠ some 2 := by
  refine ⟨rfl, by decide, by decide, by decide, by decide⟩

/-- Claim C9: constructing a menu node with an id already present in the
tree's id registry raises the duplicate-id error synchronously, before any
registration; consequently node ids are unique after every successful
construction. -/
theorem C9_duplicate_id_rejected (t : MTree) (parentIdx : Nat) (text id : JStr)
    (hdup : (lookupFirst t.menuById id).isSome) :
    addChild t parentIdx text id = Except.error (dupIdMsg id) ∧
    (∀ t', Built t' → IdsNodup t'.nodes) := by
  constructor
  · unfold addChild; rw [if_pos hdup]
  · intro t' hB'
    exact (built_basic_inv hB').2.2.2

/-- Witness for C9: re-using the root's id `r` in the concrete tree is rejected
with the error message naming `r`, and the built tree's ids are distinct. -/
theorem C9_duplicate_id_rejected_witness :
    (lookupFirst exTreeRA.menuById "r".toList).isSome = true ∧
    addChild exTreeRA 0 "other".toList "r".toList
      = Except.error (dupIdMsg "r".toList) ∧
    IdsNodup exTreeRA.nodes := by
  refine ⟨by decide, ?_, ?_⟩
  · exact (C9_duplicate_id_rejected exTreeRA 0 "other".toList "r".toList
      (by decide)).1
  · exact (C9_duplicate_id_rejected exTreeRA 0 "other".toList "r".toList
      (by decide)).2 exTreeRA exTreeRA_built

/-! ## Buttons: `MenuItemBuilder` (src/menu-item-builder.ts)

Lean `String` is used for JS strings from here on.  A stored JS function value
for `hide`/`full` is modelled by the boolean it returns when invoked and
awaited (`fullFunction`/`hideFunction : Option Bool`); `setOnPress` functions
are modelled by their presence.  `markChange` mutates the button *and* the
owning menu; here every mutator returns the updated button together with a
`MarkOut` describing the effect applied to the owner
(`marks` OR-ed into `changeFlags`, `impure` forcing `isPure = false`). -/

/-- `String.prototype.trim`, executable in the kernel: strip whitespace from
both ends. -/
def jsTrim (s : String) : String :=
  ⟨((s.data.dropWhile Char.isWhitespace).reverse.dropWhile Char.isWhitespace).reverse⟩

theorem dropWhile_of_head_not {p : Char → Bool} {l : List Char}
    (h : ∀ c, l.head? = some c → p c = false) : l.dropWhile p = l := by
  cases l with
  | nil => rfl
  | cons x xs =>
    rw [List.dropWhile_cons]
    simp [h x rfl]

theorem head_of_dropWhile_not {p : Char → Bool} (l : List Char) :
    ∀ c, (l.dropWhile p).head? = some c → p c = false := by
  intro c hc
  have := List.head?_dropWhile_not p l
  rw [hc] at this
  exact this

theorem getLast_of_dropWhile {p : Char → Bool} {l : List Char}
    (h : l.dropWhile p ≠ []) : (l.dropWhile p).getLast? = l.getLast? := by
  obtain ⟨pre, hpre⟩ := List.dropWhile_suffix (l := l) p
  conv_rhs => rw [← hpre]
  rw [List.getLast?_append]
  cases hx : (l.dropWhile p).getLast? with
  | none => exact absurd (List.getLast?_eq_none_iff.mp hx) h
  | some c => simp

theorem jsTrim_idem (s : String) : jsTrim (jsTrim s) = jsTrim s := by
  show String.mk _ = String.mk _
  congr 1
  show (List.dropWhile Char.isWhitespace
    (List.dropWhile Char.isWhitespace
      ((List.dropWhile Char.isWhitespace
        (List.dropWhile Char.isWhitespace s.data).reverse).reverse)).reverse).reverse = _
  have hA1 : (((s.data.dropWhile Char.isWhitespace).reverse.dropWhile
      Char.isWhitespace).reverse).dropWhile Char.isWhitespace
      = ((s.data.dropWhile Char.isWhitespace).reverse.dropWhile
          Char.isWhitespace).reverse := by
    apply dropWhile_of_head_not
    intro c hc
    rw [List.head?_reverse] at hc
    have hvne : (s.data.dropWhile Char.isWhitespace).reverse.dropWhile
        Char.isWhitespace ≠ [] := by
      intro h0; rw [h0] at hc; simp at hc
    rw [getLast_of_dropWhile hvne] at hc
    rw [List.getLast?_reverse] at hc
    exact head_of_dropWhile_not s.data c hc
  rw [hA1, List.reverse_reverse]
  have hA2 : ((s.data.dropWhile Char.isWhitespace).reverse.dropWhile
      Char.isWhitespace).dropWhile Char.isWhitespace
      = (s.data.dropWhile Char.isWhitespace).reverse.dropWhile Char.isWhitespace :=
    dropWhile_of_head_not
      (fun c hc => head_of_dropWhile_not (s.data.dropWhile Char.isWhitespace).reverse c hc)
  rw [hA2]

/-- Effect of a button mutation on its owning menu. -/
structure MarkOut where
  marks : Nat := 0
  impure : Bool := false
deriving Repr, DecidableEq

def MarkOut.merge (a b : MarkOut) : MarkOut :=
  { marks := a.marks ||| b.marks, impure := a.impure || b.impure }

/-- Payload of a built button (`toMenuItem` result, lines 348-362): a URL
button or a callback button whose `callback_data` is the button's path. -/
inductive BtnPayload where
  | url (u : String)
  | callback (data : String)
deriving Repr, DecidableEq

structure BuiltBtn where
  text : String
  hide : Bool
  full : Bool
  payload : BtnPayload
deriving Repr, DecidableEq

/-- A `hide`/`full` value in the `_layout`: a boolean constant or a function
(recorded by the boolean the function returns). -/
inductive LayoutBool where
  | b (v : Bool)
  | fn (r : Bool)
deriving Repr, DecidableEq

/-- The button's `_layout` (`IMenuButton`); setters write a field only while it
is still `undefined`. -/
structure BtnLayout where
  text : Option String := none
  hide : Option LayoutBool := none
  full : Option LayoutBool := none
  url : Option String := none
  hasOnPress : Bool := false
deriving Repr, DecidableEq

/-- `MenuItemBuilder` state. -/
structure ItemB where
  text : String
  hidden : Bool := false
  full : Bool := false
  url : Option String := none
  fullFunction : Option Bool := none
  hideFunction : Option Bool := none
  builtItem : Option BuiltBtn := none
  isPure : Bool := true
  id : String
  changeFlags : Nat := 0
  layout : BtnLayout := {}
  hasOnPress : Bool := false
deriving Repr, DecidableEq

/-- The constructor (menu-item-builder.ts 136-144): stores text and id and the
initial `_layout = { text }`; `changeFlags` starts at `Change.None`. -/
def mkItem (text id : String) : ItemB :=
  { text := text, id := id, layout := { text := some text } }

/-- `markChange` (365-371): OR the bit into the button's flags and hand the
same bit to the owning menu (`this.parent['markChange'](change)`). -/
def ItemB.markChange (b : ItemB) (c : Nat) : ItemB × MarkOut :=
  ({ b with changeFlags := b.changeFlags ||| c }, { marks := c })

/-- The `text` property setter (87-100): trim, silently ignore an empty or
equal assignment, record the layout text while undefined, store, mark `Text`.
(The JS non-string guard is vacuous under typing.) -/
def ItemB.setTextProp (b : ItemB) (tv : String) : ItemB × MarkOut :=
  let tv := jsTrim tv
  if tv = "" then (b, {})
  else if b.text = tv then (b, {})
  else
    let b := { b with layout :=
      if b.layout.text = none then { b.layout with text := some tv } else b.layout }
    ItemB.markChange { b with text := tv } ChangeText

/-- The `hide` property setter (107-117). -/
def ItemB.setHideProp (b : ItemB) (tv : Bool) : ItemB × MarkOut :=
  if b.hidden = tv then (b, {})
  else
    let b := { b with layout :=
      if b.layout.hide = none then { b.layout with hide := some (.b tv) } else b.layout }
    ItemB.markChange { b with hidden := tv } ChangeVisibility

/-- The `full` property setter (124-134). -/
def ItemB.setFullProp (b : ItemB) (tv : Bool) : ItemB × MarkOut :=
  if b.full = tv then (b, {})
  else
    let b := { b with layout :=
      if b.layout.full = none then { b.layout with full := some (.b tv) } else b.layout }
    ItemB.markChange { b with full := tv } ChangeLayout

/-- The `setText` method (155-164): trim, ignore empty/equal, otherwise assign
through the `text` setter and mark `Text` once more. -/
def ItemB.setTextM (b : ItemB) (tv : String) : ItemB × MarkOut :=
  let t := jsTrim tv
  if t = "" then (b, {})
  else if b.text = t then (b, {})
  else
    let r1 := b.setTextProp t
    let r2 := r1.1.markChange ChangeText
    (r2.1, r1.2.merge r2.2)

/-- A `setHide`/`setFull` argument: boolean constant or function. -/
inductive BoolOrFn where
  | const (v : Bool)
  | fn (r : Bool)
deriving Repr, DecidableEq

/-- The `setHide` method (193-216): an equal boolean is a no-op; a differing
boolean goes through the `hide` setter; a function is stored, makes the button
and its owning menu impure; both non-trivial branches also update the layout
while undefined and mark `Visibility` once more. -/
def ItemB.setHideM (b : ItemB) (v : BoolOrFn) : ItemB × MarkOut :=
  match v with
  | .const tv =>
    if b.hidden = tv then (b, {})
    else
      let r1 := b.setHideProp tv
      let b1 := { r1.1 with layout :=
        if r1.1.layout.hide = none then { r1.1.layout with hide := some (.b tv) }
        else r1.1.layout }
      let r2 := b1.markChange ChangeVisibility
      (r2.1, r1.2.merge r2.2)
  | .fn r =>
    let b1 := { b with hideFunction := some r, isPure := false }
    let b2 := { b1 with layout :=
      if b1.layout.hide = none then { b1.layout with hide := some (.fn r) }
      else b1.layout }
    let r2 := b2.markChange ChangeVisibility
    (r2.1, { r2.2 with impure := true })

/-- The `setFull` method (248-271), mirror image of `setHide`. -/
def ItemB.setFullM (b : ItemB) (v : BoolOrFn) : ItemB × MarkOut :=
  match v with
  | .const tv =>
    if b.full = tv then (b, {})
    else
      let r1 := b.setFullProp tv
      let b1 := { r1.1 with layout :=
        if r1.1.layout.full = none then { r1.1.layout with full := some (.b tv) }
        else r1.1.layout }
      let r2 := b1.markChange ChangeLayout
      (r2.1, r1.2.merge r2.2)
  | .fn r =>
    let b1 := { b with fullFunction := some r, isPure := false }
    let b2 := { b1 with layout :=
      if b1.layout.full = none then { b1.layout with full := some (.fn r) }
      else b1.layout }
    let r2 := b2.markChange ChangeLayout
    (r2.1, { r2.2 with impure := true })

/-- Body of `toMenuItem` past the cache check (337-362): resolve the stored
`full`/`hide` functions through the property setters, clear the button's
flags, build the URL or callback item and cache it. -/
def ItemB.toMenuItemBuild (b : ItemB) (parentPath : String) :
    BuiltBtn × ItemB × MarkOut :=
  let r1 := match b.fullFunction with
    | some r => b.setFullProp r
    | none => (b, ({} : MarkOut))
  let r2 := match r1.1.hideFunction with
    | some r => r1.1.setHideProp r
    | none => (r1.1, ({} : MarkOut))
  let b3 := { r2.1 with changeFlags := 0 }
  let built : BuiltBtn := match b3.url with
    | some u => { text := b3.text, hide := b3.hidden, full := b3.full, payload := .url u }
    | none => { text := b3.text, hide := b3.hidden, full := b3.full,
                payload := .callback (parentPath ++ b3.id) }
  (built, { b3 with builtItem := some built }, r1.2.merge r2.2)

/-- `toMenuItem` (328-363): a pure button with clear flags and a cached built
item returns the cache unchanged; otherwise the item is rebuilt. -/
def ItemB.toMenuItem (b : ItemB) (parentPath : String) :
    BuiltBtn × ItemB × MarkOut :=
  if b.isPure ∧ b.changeFlags = 0 then
    match b.builtItem with
    | some it => (it, b, {})
    | none => b.toMenuItemBuild parentPath
  else b.toMenuItemBuild parentPath

/-! ## Menus: `MenuBuilder` render state and `toMenu`
(src/menu-builder.ts: `text` setter 138-145, `markChange` 791-794,
`toMenu` 671-748; src/menu.ts: the `Menu` class)

A `Menu` (menu.ts) is the built render: its `parent` chain is flattened into a
list whose head is the menu itself.  A `MenuBuilder` is likewise a non-empty
list of `MenuCore`s, head first — `toMenu` recursing into `this._parent` walks
the tail.  The stored dynamic builder (`SYM_DYNAMIC_MENU_BUILDER`) is modelled
by the value the awaited builder call produces: either a replacement
`MenuBuilder`-like pair of text and buttons (a layout object is turned into one
by `fromObject`) or an invalid value, which makes `toMenu` throw. -/

/-- One link of a built `Menu`'s parent chain (the `Menu` constructor fields,
menu.ts 19-28, minus the parent pointer). -/
structure RenderCore where
  text : String
  id : String
  buttons : List (List BuiltBtn)
  path : String
  isPure : Bool
  index : Nat
  extra : Option Unit
deriving Repr, DecidableEq

/-- A built `Menu`: the menu itself followed by its ancestors. -/
structure MenuRender where
  chain : List RenderCore
deriving Repr, DecidableEq

/-- What the stored dynamic builder produces when invoked and awaited
(toMenu 679-699): a `MenuBuilder` (directly, or via `fromObject` of a layout
object) — modelled by the resulting text and buttons — or a non-object value,
which throws. -/
inductive DynResult where
  | builder (text : String) (buttons : List (String × ItemB))
  | invalid
deriving Repr, DecidableEq

/-- `MenuBuilder` state relevant to rendering: one link of the parent chain. -/
structure MenuCore where
  text : String
  id : String
  path : String
  isPure : Bool := true
  index : Nat := 0
  changeFlags : Nat := ChangeDraw
  cache : Option MenuRender := none
  buttons : List (String × ItemB) := []
  dynamic : Option DynResult := none
  firstDynamicDraw : Bool := false
  extra : Option Unit := none
deriving Repr, DecidableEq

/-- The menu `text` setter (menu-builder.ts 138-145): trim, ignore empty or
equal, otherwise store and `markChange(Change.Text)`. -/
def MenuCore.setTextProp (m : MenuCore) (tv : String) : MenuCore :=
  let tv := jsTrim tv
  if tv = "" then m
  else if m.text = tv then m
  else { m with text := tv, changeFlags := m.changeFlags ||| ChangeText }

/-- Apply a button's `MarkOut` to the owning menu: `markChange` (791-794) ORs
the bit in; the impure flag is `this.parent.isPure = false`. -/
def MenuCore.applyOut (m : MenuCore) (o : MarkOut) : MenuCore :=
  { m with changeFlags := m.changeFlags ||| o.marks,
           isPure := m.isPure && !o.impure }

/-- The row-building loop of `toMenu` (718-732): iterate the buttons in
insertion order, `toMenuItem` each; a full-width item flushes the current row
(when non-empty) and occupies a row of its own, others are appended to the
current row.  Returns the pushed rows, the final `currentRow`, the updated
buttons and the accumulated owner marks. -/
def rowsLoop (path : String) :
    List (String × ItemB) → Option (List BuiltBtn) →
    List (List BuiltBtn) × Option (List BuiltBtn) × List (String × ItemB) × MarkOut
  | [], currentRow => ([], currentRow, [], {})
  | (bid, b) :: rest, currentRow =>
    let r := b.toMenuItem path
    let item := r.1
    let step : List (List BuiltBtn) × Option (List BuiltBtn) :=
      if item.full then
        match currentRow with
        | some row =>
          if row.length ≠ 0 then ([row, [item]], some [])
          else ([[item]], some row)
        | none => ([[item]], none)
      else
        ([], match currentRow with
             | some row => some (row ++ [item])
             | none => some [item])
    let rec1 := rowsLoop path rest step.2
    (step.1 ++ rec1.1, rec1.2.1, (bid, r.2.1) :: rec1.2.2.1, r.2.2.merge rec1.2.2.2)

/-- The trailing flush of `toMenu` (734-736). -/
def finishRows (items : List (List BuiltBtn)) (currentRow : Option (List BuiltBtn)) :
    List (List BuiltBtn) :=
  match currentRow with
  | some row => if row.length ≠ 0 then items ++ [row] else items
  | none => items

/-- The dynamic-menu step of `toMenu` (677-711), reached when `changeFlags` is
non-zero: an absent dynamic builder leaves the node unchanged; a present one is
invoked unless this is the first dynamic draw (then only the flag is cleared);
its result replaces the node's text (through the `text` setter) and buttons, or
throws when it is not a layout object or a menu builder. -/
def toMenuStep (c : MenuCore) : Except String MenuCore :=
  if c.changeFlags ≠ 0 then
    match c.dynamic with
    | some dyn =>
      if !c.firstDynamicDraw then
        match dyn with
        | DynResult.invalid =>
          Except.error "Built menu was not a layout object or menu builder."
        | DynResult.builder t bs =>
          Except.ok { c.setTextProp t with buttons := bs }
      else Except.ok { c with firstDynamicDraw := false }
    | none => Except.ok c
  else Except.ok c

/-- `toMenu` (671-748) over the chain of a builder and its ancestors.
`soft = true` keeps `changeFlags` and the cache untouched (line 741-745).
The clear-flags-and-cached-menu fast path returns the cache (672-676); the
dynamic branch runs only when the flags are non-zero (`else if`, 677);
the parent is always built with `soft = false` (line 738, no argument). -/
def toMenuChain : List MenuCore → Bool → Except String (MenuRender × List MenuCore)
  | [], _ => Except.error "toMenu invoked with no menu"
  | c :: ps, soft =>
    if c.changeFlags = 0 ∧ c.cache.isSome then
      Except.ok (c.cache.getD ⟨[]⟩, c :: ps)
    else
      match toMenuStep c with
      | Except.error e => Except.error e
      | Except.ok c1 =>
        let r := rowsLoop c1.path c1.buttons none
        let rows := finishRows r.1 r.2.1
        let c2 := (({ c1 with buttons := r.2.2.1 }) : MenuCore).applyOut r.2.2.2
        match (if ps.isEmpty then Except.ok (none, ps)
               else
                 match toMenuChain ps false with
                 | Except.error e => Except.error e
                 | Except.ok (pm, ps') => Except.ok (some pm, ps')) with
        | Except.error e => Except.error e
        | Except.ok (pm, ps') =>
          let menu : MenuRender :=
            ⟨{ text := c2.text, id := c2.id, buttons := rows, path := c2.path,
               isPure := c2.isPure, index := c2.index, extra := c2.extra } ::
             (match pm with
              | some r => r.chain
              | none => [])⟩
          let c3 := if !soft then { c2 with changeFlags := 0, cache := some menu }
                    else c2
          Except.ok (menu, c3 :: ps')

/-- Claim C3: (a) a menu whose change bitset is `None` and that holds a
previously built render returns that cached `Menu` itself, with no state
change; (b) every completed non-soft build (`toMenu(false)`) leaves the node
with a clear bitset and the freshly built `Menu` as its cache; (c) a pure
button with a clear bitset and an existing built item returns that item
unchanged from `toMenuItem`. -/
theorem C3_render_cache (c : MenuCore) (ps : List MenuCore) (soft : Bool)
    (m : MenuRender) (hflags : c.changeFlags = 0) (hcache : c.cache = some m) :
    toMenuChain (c :: ps) soft = Except.ok (m, c :: ps) ∧
    (∀ (c0 : MenuCore) (ps0 ch' : List MenuCore) (m0 : MenuRender),
       toMenuChain (c0 :: ps0) false = Except.ok (m0, ch') →
       ∃ c' ps', ch' = c' :: ps' ∧ c'.changeFlags = 0 ∧ c'.cache = some m0) ∧
    (∀ (b : ItemB) (pp : String) (bi : BuiltBtn),
       b.isPure = true → b.changeFlags = 0 → b.builtItem = some bi →
       b.toMenuItem pp = (bi, b, {})) := by
  refine ⟨?_, ?_, ?_⟩
  · simp [toMenuChain, hflags, hcache]
  · intro c0 ps0 ch' m0 h
    by_cases hc : c0.changeFlags = 0 ∧ c0.cache.isSome
    · rw [show toMenuChain (c0 :: ps0) false
          = Except.ok (c0.cache.getD ⟨[]⟩, c0 :: ps0) from by
        simp [toMenuChain, hc.1, hc.2]] at h
      injection h with h
      obtain ⟨h1, h2⟩ := Prod.mk.injEq .. ▸ h
      refine ⟨c0, ps0, h2.symm, hc.1, ?_⟩
      obtain ⟨mm, hmm⟩ := Option.isSome_iff_exists.mp hc.2
      rw [hmm] at h1 ⊢
      simp at h1
      rw [h1]
    · rw [show (toMenuChain (c0 :: ps0) false)
          = (if c0.changeFlags = 0 ∧ c0.cache.isSome then
              Except.ok (c0.cache.getD ⟨[]⟩, c0 :: ps0)
            else _) from rfl, if_neg hc] at h
      -- dissect the build path: any `ok` result carries a head with cleared
      -- flags and the new menu as cache
      split at h
      · exact absurd h (by simp)
      · rename_i c1 heq1
        split at h
        · exact absurd h (by simp)
        · rename_i pm ps' heq2
          injection h with h
          obtain ⟨h1, h2⟩ := Prod.mk.injEq .. ▸ h
          refine ⟨_, ps', h2.symm, ?_, ?_⟩ <;> simp [← h1]
  · intro b pp bi hp hf hb
    simp [ItemB.toMenuItem, hp, hf, hb]

/-- A concrete fresh menu with one button, and the state after one hard build. -/
def exMenuFresh : MenuCore :=
  { text := "hello", id := "m", path := "/m/",
    buttons := [("b1", mkItem "one" "b1")] }

def exMenuBuilt : MenuCore :=
  match toMenuChain [exMenuFresh] false with
  | Except.ok (_, c :: _) => c
  | _ => exMenuFresh

def exMenuRender : MenuRender :=
  match toMenuChain [exMenuFresh] false with
  | Except.ok (m, _) => m
  | _ => ⟨[]⟩

def exBtnBuilt : ItemB :=
  match exMenuBuilt.buttons with
  | (_, b) :: _ => b
  | _ => mkItem "one" "b1"

def exBtnItem : BuiltBtn :=
  match exBtnBuilt.builtItem with
  | some it => it
  | none => { text := "", hide := false, full := false, payload := .url "" }

/-- Witness for C3 on the concrete one-button menu: after a hard build the
flags are clear and the cache holds the render, a repeated `toMenu` returns the
cached render with the state untouched, and the built button's `toMenuItem`
returns its cached item. -/
theorem C3_render_cache_witness :
    exMenuBuilt.changeFlags = 0 ∧ exMenuBuilt.cache = some exMenuRender ∧
    toMenuChain [exMenuBuilt] true = Except.ok (exMenuRender, [exMenuBuilt]) ∧
    toMenuChain [exMenuBuilt] false = Except.ok (exMenuRender, [exMenuBuilt]) ∧
    (exBtnBuilt.isPure = true ∧ exBtnBuilt.changeFlags = 0 ∧
     exBtnBuilt.builtItem = some exBtnItem) ∧
    exBtnBuilt.toMenuItem "/m/" = (exBtnItem, exBtnBuilt, {}) := by
  refine ⟨by decide, by decide, ?_, ?_, ⟨by decide, by decide, by decide⟩, ?_⟩
  · exact (C3_render_cache exMenuBuilt [] true exMenuRender
      (by decide) (by decide)).1
  · exact (C3_render_cache exMenuBuilt [] false exMenuRender
      (by decide) (by decide)).1
  · exact (C3_render_cache exMenuBuilt [] false exMenuRender
      (by decide) (by decide)).2.2 exBtnBuilt "/m/" exBtnItem
      (by decide) (by decide) (by decide)

/-- Claim C4 (amended): a text assignment whose *trimmed* value is empty or
equals the current stored value is a silent no-op (state and bitset untouched),
for buttons and menus, through the property setters and the chainable methods;
assigning `hide`/`full` a boolean equal to the current value is likewise a
no-op.  (Assigning the exact current text when the stored text is not
trim-stable does mutate, see the counterexample.) -/
theorem C4_noop_writes :
    (∀ (b : ItemB) (s : String), jsTrim s = "" → b.setTextProp s = (b, {})) ∧
    (∀ (b : ItemB) (s : String), jsTrim s = b.text → b.setTextProp s = (b, {})) ∧
    (∀ b : ItemB, b.setHideProp b.hidden = (b, {})) ∧
    (∀ b : ItemB, b.setFullProp b.full = (b, {})) ∧
    (∀ (b : ItemB) (s : String), jsTrim s = "" → b.setTextM s = (b, {})) ∧
    (∀ (b : ItemB) (s : String), jsTrim s = b.text → b.setTextM s = (b, {})) ∧
    (∀ b : ItemB, b.setHideM (.const b.hidden) = (b, {})) ∧
    (∀ b : ItemB, b.setFullM (.const b.full) = (b, {})) ∧
    (∀ (m : MenuCore) (s : String), jsTrim s = "" → m.setTextProp s = m) ∧
    (∀ (m : MenuCore) (s : String), jsTrim s = m.text → m.setTextProp s = m) := by
  refine ⟨?_, ?_, ?_, ?_, ?_, ?_, ?_, ?_, ?_, ?_⟩
  · intro b s h; simp [ItemB.setTextProp, h]
  · intro b s h
    by_cases he : jsTrim s = ""
    · simp [ItemB.setTextProp, he]
    · simp [ItemB.setTextProp, he, h.symm]
  · intro b; simp [ItemB.setHideProp]
  · intro b; simp [ItemB.setFullProp]
  · intro b s h; simp [ItemB.setTextM, h]
  · intro b s h
    by_cases he : jsTrim s = ""
    · simp [ItemB.setTextM, he]
    · simp [ItemB.setTextM, he, h.symm]
  · intro b; simp [ItemB.setHideM]
  · intro b; simp [ItemB.setFullM]
  · intro m s h; simp [MenuCore.setTextProp, h]
  · intro m s h
    by_cases he : jsTrim s = ""
    · simp [MenuCore.setTextProp, he]
    · simp [MenuCore.setTextProp, he, h.symm]

/-- Witness for C4 at concrete no-op writes. -/
theorem C4_noop_writes_witness :
    (jsTrim " " = "" ∧ (mkItem "x" "b").setTextProp " " = (mkItem "x" "b", {})) ∧
    (jsTrim " x " = (mkItem "x" "b").text ∧
     (mkItem "x" "b").setTextProp " x " = (mkItem "x" "b", {})) ∧
    (mkItem "x" "b").setHideProp (mkItem "x" "b").hidden = (mkItem "x" "b", {}) ∧
    (mkItem "x" "b").setFullM (.const (mkItem "x" "b").full) = (mkItem "x" "b", {}) ∧
    (({ text := "t", id := "m", path := "/m/" } : MenuCore).setTextProp "t"
      = { text := "t", id := "m", path := "/m/" }) := by
  refine ⟨⟨by decide, ?_⟩, ⟨by decide, ?_⟩, ?_, ?_, ?_⟩
  · exact C4_noop_writes.1 (mkItem "x" "b") " " (by decide)
  · exact C4_noop_writes.2.1 (mkItem "x" "b") " x " (by decide)
  · exact C4_noop_writes.2.2.1 (mkItem "x" "b")
  · exact C4_noop_writes.2.2.2.2.2.2.2.1 (mkItem "x" "b")
  · exact C4_noop_writes.2.2.2.2.2.2.2.2.2
      ({ text := "t", id := "m", path := "/m/" } : MenuCore) "t" (by decide)

/-- Counterexample to C4 as stated: a button constructed with the untrimmed
text `" x "` (the constructor does not trim) and then assigned the *same*
string `" x "` is mutated — the stored text becomes `"x"` and the `Text` bit is
set — because the setter compares the trimmed input with the stored value. -/
theorem C4_counterexample :
    (mkItem " x " "b1").text = " x " ∧
    ((mkItem " x " "b1").setTextProp " x ").1.text = "x" ∧
    ((mkItem " x " "b1").setTextProp " x ").1.changeFlags = ChangeText ∧
    (mkItem " x " "b1").changeFlags = 0 := by
  refine ⟨rfl, by decide, by decide, rfl⟩

/-! ## The mutation surface of a menu and the bitset coupling (claim C10) -/

/-- Mutate the button with the given id (JS dictionaries hold one binding per
key, so the first match is the binding) and report its `MarkOut`. -/
def applyToButton (bs : List (String × ItemB)) (id : String)
    (f : ItemB → ItemB × MarkOut) : List (String × ItemB) × MarkOut :=
  match bs with
  | [] => ([], {})
  | (bid, b) :: rest =>
    if bid = id then ((bid, (f b).1) :: rest, (f b).2)
    else
      let r := applyToButton rest id f
      ((bid, b) :: r.1, r.2)

/-- `end()` of a button builder (menu-item-builder.ts 313-318):
`parent.buttons[this.id] = this` — replace an existing binding in place or
append a new one. -/
def insertButton (bs : List (String × ItemB)) (id : String) (b : ItemB) :
    List (String × ItemB) :=
  match bs with
  | [] => [(id, b)]
  | (bid, b0) :: rest =>
    if bid = id then (bid, b) :: rest
    else (bid, b0) :: insertButton rest id b

/-- The operations that touch a menu or its buttons during a program run:
the property setters and chainable setters on buttons, the menu text setter,
adding a button, building (`toMenu soft`), and the dispatcher's direct flag
assignments `changeFlags = Change.Update` (callback-handler.ts 703-704) and
`changeFlags = Change.Draw` (677, 688). -/
inductive MOp where
  | btnTextProp (id : String) (v : String)
  | btnHideProp (id : String) (v : Bool)
  | btnFullProp (id : String) (v : Bool)
  | btnTextM (id : String) (v : String)
  | btnHideM (id : String) (v : BoolOrFn)
  | btnFullM (id : String) (v : BoolOrFn)
  | menuText (v : String)
  | addButton (text id : String)
  | build (soft : Bool)
  | forceUpdate
  | forceDraw
deriving Repr, DecidableEq

/-- Apply one operation to the head menu of a chain (button mutations OR their
marks into the owning menu via `applyOut`, exactly as `markChange` notifies
`this.parent`). -/
def applyOp (ch : List MenuCore) (op : MOp) : List MenuCore :=
  match ch with
  | [] => []
  | c :: ps =>
    match op with
    | MOp.btnTextProp id v =>
      let r := applyToButton c.buttons id (fun b => b.setTextProp v)
      ({ c with buttons := r.1 }.applyOut r.2) :: ps
    | MOp.btnHideProp id v =>
      let r := applyToButton c.buttons id (fun b => b.setHideProp v)
      ({ c with buttons := r.1 }.applyOut r.2) :: ps
    | MOp.btnFullProp id v =>
      let r := applyToButton c.buttons id (fun b => b.setFullProp v)
      ({ c with buttons := r.1 }.applyOut r.2) :: ps
    | MOp.btnTextM id v =>
      let r := applyToButton c.buttons id (fun b => b.setTextM v)
      ({ c with buttons := r.1 }.applyOut r.2) :: ps
    | MOp.btnHideM id v =>
      let r := applyToButton c.buttons id (fun b => b.setHideM v)
      ({ c with buttons := r.1 }.applyOut r.2) :: ps
    | MOp.btnFullM id v =>
      let r := applyToButton c.buttons id (fun b => b.setFullM v)
      ({ c with buttons := r.1 }.applyOut r.2) :: ps
    | MOp.menuText v => c.setTextProp v :: ps
    | MOp.addButton t id =>
      { c with buttons := insertButton c.buttons id (mkItem t id) } :: ps
    | MOp.build soft =>
      match toMenuChain (c :: ps) soft with
      | Except.ok (_, ch') => ch'
      | Except.error _ => c :: ps
    | MOp.forceUpdate => { c with changeFlags := ChangeUpdate } :: ps
    | MOp.forceDraw => { c with changeFlags := ChangeDraw } :: ps

/-- The consequence half of C10: a menu with a clear bitset has only
clear-bitset buttons. -/
def BtnsClear (c : MenuCore) : Prop :=
  c.changeFlags = 0 → ∀ p ∈ c.buttons, (p : String × ItemB).2.changeFlags = 0

def ChainInv (ch : List MenuCore) : Prop := ∀ c ∈ ch, BtnsClear c

/-- A zero `MarkOut` from any button mutator means the button is unchanged. -/
theorem mutator_zero_marks_id :
    (∀ (b : ItemB) (v : String), (b.setTextProp v).2.marks = 0 → (b.setTextProp v).1 = b) ∧
    (∀ (b : ItemB) (v : Bool), (b.setHideProp v).2.marks = 0 → (b.setHideProp v).1 = b) ∧
    (∀ (b : ItemB) (v : Bool), (b.setFullProp v).2.marks = 0 → (b.setFullProp v).1 = b) ∧
    (∀ (b : ItemB) (v : String), (b.setTextM v).2.marks = 0 → (b.setTextM v).1 = b) ∧
    (∀ (b : ItemB) (v : BoolOrFn), (b.setHideM v).2.marks = 0 → (b.setHideM v).1 = b) ∧
    (∀ (b : ItemB) (v : BoolOrFn), (b.setFullM v).2.marks = 0 → (b.setFullM v).1 = b) := by
  refine ⟨?_, ?_, ?_, ?_, ?_, ?_⟩
  · intro b v h
    by_cases h1 : jsTrim v = ""
    · simp [ItemB.setTextProp, h1]
    · by_cases h2 : b.text = jsTrim v
      · simp [ItemB.setTextProp, h1, h2]
      · exfalso
        simp [ItemB.setTextProp, h1, h2, ItemB.markChange, ChangeText] at h
  · intro b v h
    by_cases h1 : b.hidden = v
    · simp [ItemB.setHideProp, h1]
    · exfalso
      simp [ItemB.setHideProp, h1, ItemB.markChange, ChangeVisibility] at h
  · intro b v h
    by_cases h1 : b.full = v
    · simp [ItemB.setFullProp, h1]
    · exfalso
      simp [ItemB.setFullProp, h1, ItemB.markChange, ChangeLayout] at h
  · intro b v h
    by_cases h1 : jsTrim v = ""
    · simp [ItemB.setTextM, h1]
    · by_cases h2 : b.text = jsTrim v
      · simp [ItemB.setTextM, h1, h2]
      · exfalso
        simp [ItemB.setTextM, ItemB.setTextProp, h1, h2, ItemB.markChange,
          MarkOut.merge, ChangeText, jsTrim_idem] at h
  · intro b v h
    cases v with
    | const tv =>
      by_cases h1 : b.hidden = tv
      · simp [ItemB.setHideM, h1]
      · exfalso
        simp [ItemB.setHideM, h1, ItemB.setHideProp, ItemB.markChange,
          MarkOut.merge, ChangeVisibility] at h
    | fn r =>
      exfalso
      simp [ItemB.setHideM, ItemB.markChange, MarkOut.merge, ChangeVisibility] at h
  · intro b v h
    cases v with
    | const tv =>
      by_cases h1 : b.full = tv
      · simp [ItemB.setFullM, h1]
      · exfalso
        simp [ItemB.setFullM, h1, ItemB.setFullProp, ItemB.markChange,
          MarkOut.merge, ChangeLayout] at h
    | fn r =>
      exfalso
      simp [ItemB.setFullM, ItemB.markChange, MarkOut.merge, ChangeLayout] at h

theorem or_eq_zero_iff {a b : Nat} : a ||| b = 0 ↔ a = 0 ∧ b = 0 := by
  constructor
  · intro h
    have ha : a = 0 := by
      apply Nat.eq_of_testBit_eq
      intro i
      have hz : (a ||| b).testBit i = false := by rw [h]; simp
      rw [Nat.testBit_or] at hz
      simp only [Bool.or_eq_false_iff] at hz
      simp [hz.1]
    have hb : b = 0 := by
      apply Nat.eq_of_testBit_eq
      intro i
      have hz : (a ||| b).testBit i = false := by rw [h]; simp
      rw [Nat.testBit_or] at hz
      simp only [Bool.or_eq_false_iff] at hz
      simp [hz.2]
    exact ⟨ha, hb⟩
  · rintro ⟨h1, h2⟩; simp [h1, h2]

/-- `toMenuItem` always leaves the button's bitset clear (line 346 sets it to
`Change.None`; the cache path requires it already clear). -/
theorem toMenuItemBuild_clearFlags (b : ItemB) (pp : String) :
    (b.toMenuItemBuild pp).2.1.changeFlags = 0 := by
  unfold ItemB.toMenuItemBuild
  cases hf : b.fullFunction <;> cases hu0 : b.url <;>
    simp [ItemB.setFullProp, ItemB.setHideProp, ItemB.markChange] <;>
    (try split) <;> (try split) <;> simp_all <;> (try split) <;> simp_all

theorem toMenuItem_clearFlags (b : ItemB) (pp : String) :
    (b.toMenuItem pp).2.1.changeFlags = 0 := by
  unfold ItemB.toMenuItem
  by_cases hc : b.isPure ∧ b.changeFlags = 0
  · rw [if_pos hc]
    cases hb : b.builtItem with
    | some it => exact hc.2
    | none => exact toMenuItemBuild_clearFlags b pp
  · rw [if_neg hc]
    exact toMenuItemBuild_clearFlags b pp

/-- Every button that comes out of the row-building loop has a clear bitset. -/
theorem rowsLoop_clearFlags (path : String) (bs : List (String × ItemB)) :
    ∀ currentRow p, p ∈ (rowsLoop path bs currentRow).2.2.1 →
      (p : String × ItemB).2.changeFlags = 0 := by
  induction bs with
  | nil => intro cr p hp; simp [rowsLoop] at hp
  | cons hd rest ih =>
    intro cr p hp
    obtain ⟨bid, b⟩ := hd
    simp only [rowsLoop] at hp
    rw [List.mem_cons] at hp
    rcases hp with hp | hp
    · subst hp; exact toMenuItem_clearFlags b path
    · exact ih _ p hp

/-- Any successful `toMenu` leaves every menu of the resulting chain with
clear-flag buttons whenever its own flags are clear. -/
theorem toMenuChain_preserves_inv :
    ∀ (ch : List MenuCore) (soft : Bool) (m : MenuRender) (ch' : List MenuCore),
      ChainInv ch → toMenuChain ch soft = Except.ok (m, ch') → ChainInv ch' := by
  intro ch
  induction ch with
  | nil => intro soft m ch' _ h; simp [toMenuChain] at h
  | cons c ps ih =>
    intro soft m ch' hInv h
    have hTail : ChainInv ps := fun x hx => hInv x (List.mem_cons_of_mem c hx)
    by_cases hc : c.changeFlags = 0 ∧ c.cache.isSome
    · rw [show toMenuChain (c :: ps) soft
          = Except.ok (c.cache.getD ⟨[]⟩, c :: ps) from by
        simp [toMenuChain, hc.1, hc.2]] at h
      injection h with h
      obtain ⟨-, h2⟩ := Prod.mk.injEq .. ▸ h
      rw [← h2]
      exact hInv
    · rw [show toMenuChain (c :: ps) soft
          = (if c.changeFlags = 0 ∧ c.cache.isSome then
              Except.ok (c.cache.getD ⟨[]⟩, c :: ps)
            else _) from rfl, if_neg hc] at h
      split at h
      · exact absurd h (by simp)
      · rename_i c1 heq1
        split at h
        · exact absurd h (by simp)
        · rename_i pm ps' heq2
          injection h with h
          obtain ⟨-, h2⟩ := Prod.mk.injEq .. ▸ h
          rw [← h2]
          intro x hx
          rw [List.mem_cons] at hx
          rcases hx with hx | hx
          · -- the rebuilt head: its buttons all come out of `rowsLoop`
            subst hx
            intro _ p hp
            have hbtns : ∀ q ∈ (rowsLoop c1.path c1.buttons none).2.2.1,
                (q : String × ItemB).2.changeFlags = 0 :=
              fun q hq => rowsLoop_clearFlags c1.path c1.buttons none q hq
            revert hp
            split <;> (intro hp; exact hbtns p hp)
          · -- the rebuilt ancestors
            split at heq2
            · injection heq2 with heq2
              obtain ⟨-, hps⟩ := Prod.mk.injEq .. ▸ heq2
              rw [← hps] at hx
              exact hTail x hx
            · split at heq2
              · exact absurd heq2 (by simp)
              · rename_i pm0 ps0 heq3
                injection heq2 with heq2
                obtain ⟨-, hps⟩ := Prod.mk.injEq .. ▸ heq2
                rw [← hps] at hx
                exact ih false pm0 ps0 hTail heq3 x hx

/-- A zero-marks mutation through `applyToButton` leaves the button list
unchanged. -/
theorem applyToButton_zero (bs : List (String × ItemB)) (id : String)
    (f : ItemB → ItemB × MarkOut)
    (hf : ∀ b, (f b).2.marks = 0 → (f b).1 = b)
    (h : (applyToButton bs id f).2.marks = 0) :
    (applyToButton bs id f).1 = bs := by
  induction bs with
  | nil => rfl
  | cons hd rest ih =>
    obtain ⟨bid, b⟩ := hd
    by_cases hb : bid = id
    · simp only [applyToButton, if_pos hb] at h ⊢
      rw [hf b h]
    · simp only [applyToButton, if_neg hb] at h ⊢
      rw [ih h]

theorem mem_insertButton {bs : List (String × ItemB)} {id : String} {b : ItemB}
    {p : String × ItemB} (hp : p ∈ insertButton bs id b) :
    p.2 = b ∨ p ∈ bs := by
  induction bs with
  | nil => simp [insertButton] at hp; simp [hp]
  | cons hd rest ih =>
    obtain ⟨bid, b0⟩ := hd
    by_cases hb : bid = id
    · simp only [insertButton, if_pos hb] at hp
      rw [List.mem_cons] at hp
      rcases hp with hp | hp
      · exact Or.inl (by rw [hp])
      · exact Or.inr (List.mem_cons_of_mem _ hp)
    · simp only [insertButton, if_neg hb] at hp
      rw [List.mem_cons] at hp
      rcases hp with hp | hp
      · exact Or.inr (by rw [hp]; exact List.mem_cons_self _ _)
      · rcases ih hp with h | h
        · exact Or.inl h
        · exact Or.inr (List.mem_cons_of_mem _ h)

/-- Every operation preserves the "clear menu has clear buttons" invariant. -/
theorem applyOp_preserves_inv (ch : List MenuCore) (op : MOp)
    (hInv : ChainInv ch) : ChainInv (applyOp ch op) := by
  cases ch with
  | nil => simpa [applyOp] using hInv
  | cons c ps =>
    have hTail : ChainInv ps := fun x hx => hInv x (List.mem_cons_of_mem c hx)
    have hHead : BtnsClear c := hInv c (List.mem_cons_self c ps)
    have hmut : ∀ (f : ItemB → ItemB × MarkOut),
        (∀ b, (f b).2.marks = 0 → (f b).1 = b) →
        ∀ id, ChainInv
          ((({ c with buttons := (applyToButton c.buttons id f).1 } : MenuCore).applyOut
            (applyToButton c.buttons id f).2) :: ps) := by
      intro f hf id x hx
      rw [List.mem_cons] at hx
      rcases hx with hx | hx
      · subst hx
        intro h0 p hp
        simp only [MenuCore.applyOut] at h0 hp
        obtain ⟨hc0, hm0⟩ := or_eq_zero_iff.mp h0
        rw [applyToButton_zero c.buttons id f hf hm0] at hp
        exact hHead hc0 p hp
      · exact hTail x hx
    cases op with
    | btnTextProp id v =>
      exact hmut _ (fun b => mutator_zero_marks_id.1 b v) id
    | btnHideProp id v =>
      exact hmut _ (fun b => mutator_zero_marks_id.2.1 b v) id
    | btnFullProp id v =>
      exact hmut _ (fun b => mutator_zero_marks_id.2.2.1 b v) id
    | btnTextM id v =>
      exact hmut _ (fun b => mutator_zero_marks_id.2.2.2.1 b v) id
    | btnHideM id v =>
      exact hmut _ (fun b => mutator_zero_marks_id.2.2.2.2.1 b v) id
    | btnFullM id v =>
      exact hmut _ (fun b => mutator_zero_marks_id.2.2.2.2.2 b v) id
    | menuText v =>
      simp only [applyOp]
      intro x hx
      rw [List.mem_cons] at hx
      rcases hx with hx | hx
      · subst hx
        intro h0 p hp
        unfold MenuCore.setTextProp at h0 hp
        by_cases h1 : jsTrim v = ""
        · rw [if_pos h1] at h0 hp; exact hHead h0 p hp
        · rw [if_neg h1] at h0 hp
          by_cases h2 : c.text = jsTrim v
          · rw [if_pos h2] at h0 hp; exact hHead h0 p hp
          · rw [if_neg h2] at h0 hp
            simp only at h0 hp
            obtain ⟨hc0, hm0⟩ := or_eq_zero_iff.mp h0
            exact hHead hc0 p hp
      · exact hTail x hx
    | addButton t id =>
      simp only [applyOp]
      intro x hx
      rw [List.mem_cons] at hx
      rcases hx with hx | hx
      · subst hx
        intro h0 p hp
        simp only at h0 hp
        rcases mem_insertButton hp with hp2 | hp2
        · rw [hp2]; rfl
        · exact hHead h0 p hp2
      · exact hTail x hx
    | build soft =>
      simp only [applyOp]
      split
      · rename_i m ch' heq
        exact toMenuChain_preserves_inv (c :: ps) soft m ch' hInv heq
      · exact hInv
    | forceUpdate =>
      simp only [applyOp]
      intro x hx
      rw [List.mem_cons] at hx
      rcases hx with hx | hx
      · subst hx; intro h0; exact absurd h0 (by simp [ChangeUpdate])
      · exact hTail x hx
    | forceDraw =>
      simp only [applyOp]
      intro x hx
      rw [List.mem_cons] at hx
      rcases hx with hx | hx
      · subst hx; intro h0; exact absurd h0 (by simp [ChangeDraw])
      · exact hTail x hx

/-- Claim C10: every button mutation ORs exactly the bits it sets on the
button into the owning menu (`markChange` propagates to `this.parent`), and
consequently a menu with bitset `None` has only unmodified (clear-bitset)
buttons, an invariant preserved by every operation of the mutation surface. -/
theorem C10_marks_propagate_to_menu (ops : List MOp) (ch : List MenuCore)
    (hInv : ChainInv ch) :
    (∀ (b : ItemB) (v : String), (b.setTextProp v).1.changeFlags
        = b.changeFlags ||| (b.setTextProp v).2.marks) ∧
    (∀ (b : ItemB) (v : Bool), (b.setHideProp v).1.changeFlags
        = b.changeFlags ||| (b.setHideProp v).2.marks) ∧
    (∀ (b : ItemB) (v : Bool), (b.setFullProp v).1.changeFlags
        = b.changeFlags ||| (b.setFullProp v).2.marks) ∧
    (∀ (b : ItemB) (v : String), (b.setTextM v).1.changeFlags
        = b.changeFlags ||| (b.setTextM v).2.marks) ∧
    (∀ (b : ItemB) (v : BoolOrFn), (b.setHideM v).1.changeFlags
        = b.changeFlags ||| (b.setHideM v).2.marks) ∧
    (∀ (b : ItemB) (v : BoolOrFn), (b.setFullM v).1.changeFlags
        = b.changeFlags ||| (b.setFullM v).2.marks) ∧
    (∀ (c : MenuCore) (o : MarkOut),
        (c.applyOut o).changeFlags = c.changeFlags ||| o.marks) ∧
    ChainInv (ops.foldl applyOp ch) ∧
    (∀ c ps, ops.foldl applyOp ch = c :: ps → c.changeFlags = 0 →
        ∀ p ∈ c.buttons, (p : String × ItemB).2.changeFlags = 0) := by
  have hfold : ∀ (l : List MOp) (st : List MenuCore), ChainInv st →
      ChainInv (l.foldl applyOp st) := by
    intro l
    induction l with
    | nil => intro st h; exact h
    | cons o rest ih =>
      intro st h
      exact ih (applyOp st o) (applyOp_preserves_inv st o h)
  refine ⟨?_, ?_, ?_, ?_, ?_, ?_, ?_, hfold ops ch hInv, ?_⟩
  · intro b v
    by_cases h1 : jsTrim v = ""
    · simp [ItemB.setTextProp, h1]
    · by_cases h2 : b.text = jsTrim v
      · simp [ItemB.setTextProp, h1, h2]
      · simp [ItemB.setTextProp, h1, h2, ItemB.markChange]
  · intro b v
    by_cases h1 : b.hidden = v
    · simp [ItemB.setHideProp, h1]
    · simp [ItemB.setHideProp, h1, ItemB.markChange]
  · intro b v
    by_cases h1 : b.full = v
    · simp [ItemB.setFullProp, h1]
    · simp [ItemB.setFullProp, h1, ItemB.markChange]
  · intro b v
    by_cases h1 : jsTrim v = ""
    · simp [ItemB.setTextM, h1]
    · by_cases h2 : b.text = jsTrim v
      · simp [ItemB.setTextM, h1, h2]
      · simp [ItemB.setTextM, ItemB.setTextProp, h1, h2, jsTrim_idem,
          ItemB.markChange, MarkOut.merge, Nat.or_assoc, Nat.or_self]
  · intro b v
    cases v with
    | const tv =>
      by_cases h1 : b.hidden = tv
      · simp [ItemB.setHideM, h1]
      · simp [ItemB.setHideM, ItemB.setHideProp, h1, ItemB.markChange,
          MarkOut.merge, Nat.or_assoc, Nat.or_self]
    | fn r =>
      simp [ItemB.setHideM, ItemB.markChange, MarkOut.merge]
  · intro b v
    cases v with
    | const tv =>
      by_cases h1 : b.full = tv
      · simp [ItemB.setFullM, h1]
      · simp [ItemB.setFullM, ItemB.setFullProp, h1, ItemB.markChange,
          MarkOut.merge, Nat.or_assoc, Nat.or_self]
    | fn r =>
      simp [ItemB.setFullM, ItemB.markChange, MarkOut.merge]
  · intro c o; rfl
  · intro c ps heq h0 p hp
    have := hfold ops ch hInv
    rw [heq] at this
    exact this c (List.mem_cons_self c ps) h0 p hp

/-- Witness for C10: a concrete text mutation sets the same bit on the button
and on the owning menu, and after a build-then-mutate-then-build sequence the
invariant holds on the concrete chain. -/
theorem C10_marks_propagate_to_menu_witness :
    ChainInv [exMenuFresh] ∧
    ChainInv ([MOp.btnTextProp "b1" "new",
               MOp.build false].foldl applyOp [exMenuFresh]) := by
  have hInv : ChainInv [exMenuFresh] := by
    intro c hc
    rw [List.mem_singleton] at hc
    subst hc
    intro h0
    exact absurd h0 (by decide)
  exact ⟨hInv, (C10_marks_propagate_to_menu
    [MOp.btnTextProp "b1" "new", MOp.build false] [exMenuFresh] hInv).2.2.2.2.2.2.2.1⟩

/-! ## Impurity propagation (claim C7)

The function branch of `setHide` (menu-item-builder.ts 201-207) and `setFull`
(256-262) runs `this.isPure = false; this.parent.isPure = false` — the button
and its *immediate* owning menu only.  `MenuBuilder.markChange` (791-794) does
not touch `isPure` and does not ascend.  Menus are an arena here (index =
creation order, parent by index) to talk about ancestors. -/

structure PurityNode where
  isPure : Bool := true
  parent : Option Nat := none
deriving Repr, DecidableEq

def setAt (l : List PurityNode) (i : Nat) (f : PurityNode → PurityNode) :
    List PurityNode :=
  l.mapIdx (fun j n => if j = i then f n else n)

/-- `setHide(fn)` / `setFull(fn)` at the tree level: update the button through
the `ItemB` method and mark `this.parent` (the owning menu, index
`parentIdx`) impure — nothing above it. -/
def setBtnFnTree (menus : List PurityNode) (parentIdx : Nat) (b : ItemB)
    (useHide : Bool) (r : Bool) : List PurityNode × ItemB :=
  let res := if useHide then b.setHideM (.fn r) else b.setFullM (.fn r)
  (if res.2.impure then setAt menus parentIdx (fun n => { n with isPure := false })
   else menus, res.1)

/-- Whether every ancestor menu of `i` (including `i`) up to the root is
impure — what the claim asserts after a function assignment. -/
def ancestorsImpureFrom (menus : List PurityNode) : Nat → Nat → Bool
  | 0, _ => false
  | fuel + 1, i =>
    match menus.get? i with
    | none => true
    | some n =>
      !n.isPure && (match n.parent with
        | none => true
        | some p => ancestorsImpureFrom menus fuel p)

/-- Claim C7 (amended): assigning a function as `hidden`/`full` marks the
button impure and marks exactly the immediate owning menu impure; every other
menu (in particular every strict ancestor above the parent) keeps its former
purity. -/
theorem C7_impurity_marks_button_and_parent (menus : List PurityNode)
    (parentIdx : Nat) (b : ItemB) (useHide r : Bool)
    (hp : parentIdx < menus.length) :
    ((setBtnFnTree menus parentIdx b useHide r).2.isPure = false) ∧
    ((setBtnFnTree menus parentIdx b useHide r).1.get? parentIdx
      = (menus.get? parentIdx).map (fun n => { n with isPure := false })) ∧
    (∀ j, j ≠ parentIdx →
      (setBtnFnTree menus parentIdx b useHide r).1.get? j = menus.get? j) := by
  have himp : (if useHide then b.setHideM (.fn r) else b.setFullM (.fn r)).2.impure
      = true := by
    cases useHide <;> simp [ItemB.setHideM, ItemB.setFullM, ItemB.markChange]
  have hpure : (if useHide then b.setHideM (.fn r) else b.setFullM (.fn r)).1.isPure
      = false := by
    cases useHide <;> simp [ItemB.setHideM, ItemB.setFullM, ItemB.markChange]
  refine ⟨?_, ?_, ?_⟩
  · simp only [setBtnFnTree]
    exact hpure
  · simp only [setBtnFnTree, himp, if_pos]
    simp only [setAt]
    rw [List.get?_eq_getElem?, List.getElem?_mapIdx]
    rw [List.get?_eq_getElem?]
    cases menus[parentIdx]? <;> simp
  · intro j hj
    simp only [setBtnFnTree, himp, if_pos]
    simp only [setAt]
    rw [List.get?_eq_getElem?, List.getElem?_mapIdx]
    rw [List.get?_eq_getElem?]
    cases menus[j]? <;> simp [hj]

/-- Counterexample to C7 as stated: a two-level tree (root 0, child menu 1,
the button owned by menu 1).  After assigning a hide-function, the child menu
is impure but the root — an ancestor on the chain — is still pure, so the
ancestor chain is *not* transitively impure. -/
theorem C7_counterexample :
    (setBtnFnTree [{ isPure := true, parent := none },
                   { isPure := true, parent := some 0 }] 1
        (mkItem "x" "b") true true).1.get? 0
      = some { isPure := true, parent := none } ∧
    (setBtnFnTree [{ isPure := true, parent := none },
                   { isPure := true, parent := some 0 }] 1
        (mkItem "x" "b") true true).1.get? 1
      = some { isPure := false, parent := some 0 } ∧
    ancestorsImpureFrom
      (setBtnFnTree [{ isPure := true, parent := none },
                     { isPure := true, parent := some 0 }] 1
          (mkItem "x" "b") true true).1 2 1 = false := by
  refine ⟨by decide, by decide, by decide⟩

/-- Witness for C7 at the same concrete two-level tree. -/
theorem C7_impurity_marks_button_and_parent_witness :
    (1 < ([{ isPure := true, parent := none },
           { isPure := true, parent := some 0 }] : List PurityNode).length) ∧
    (setBtnFnTree [{ isPure := true, parent := none },
                   { isPure := true, parent := some 0 }] 1
        (mkItem "x" "b") true true).2.isPure = false := by
  refine ⟨by decide, ?_⟩
  exact (C7_impurity_marks_button_and_parent
    [{ isPure := true, parent := none }, { isPure := true, parent := some 0 }]
    1 (mkItem "x" "b") true true (by decide)).1

/-! ## The value stack (src/menu-builder.ts `_getValueStack` 889-920,
`_detach` 807-845)

The stack is one JS array shared by reference between a root menu and its
dynamically attached descendants.  `pushValue(name, value)` (901-909) sets a
*named own property* on the array and pushes the value; `splice(0)` — run by
`_detach` (line 814) — empties the array elements in place but leaves named
properties untouched.  `undefined` array elements are `none`. -/

abbrev Val := Option String

structure VStack where
  items : List Val := []
  named : List (String × Val) := []
deriving Repr, DecidableEq

/-- `pushValue` (menu-builder.ts 904-908): `this[name] = value; this.push(value)`. -/
def VStack.pushValue (s : VStack) (name : String) (v : Val) : VStack :=
  { items := s.items ++ [v], named := (name, v) :: s.named }

/-- A plain `push` (callback-handler.ts 694). -/
def VStack.pushItem (s : VStack) (v : Val) : VStack :=
  { s with items := s.items ++ [v] }

/-- `splice(0)` as run by `_detach` (menu-builder.ts 814): the elements go,
the named properties stay. -/
def VStack.spliceAll (s : VStack) : VStack := { s with items := [] }

/-- Reading a named property of the stack array (latest assignment wins). -/
def VStack.lookupNamed (s : VStack) (name : String) : Option Val :=
  match s.named.find? (fun p => p.1 = name) with
  | some p => some p.2
  | none => none

/-! ## `execButtonAction` (src/callback-handler.ts 557-735)

The state carries the acting button, its parent menu (every call site passes
`button.parent` as `targetMenu`, so the two alias one record), the id of the
button's currently attached dynamic menu (`button['dynamicMenu']`), and the
shared value stack (initialized by the `attach` flow, line 149, before
`execButtonAction` can run).  Transport calls (`setMenuActive`, `closeMenu`,
`updateMenuContent`, `deleteMenu`) are recorded as effects; resolving a
`navigate` target against the registries — covered in detail by the tree model
above — is abstracted into the `navResolves` parameter. -/

inductive NavVal where
  | str (s : String)
  | num (n : Int)
deriving Repr, DecidableEq

/-- The `menu` field of a result: a layout object (with its optional `id`) or
a layout-producing function. -/
inductive MenuReq where
  | obj (idGiven : Option String)
  | fn
deriving Repr, DecidableEq

/-- `ButtonActionResult` (src/unnamed types, used by callback-handler.ts
561-573): every field optional; `value` is the carried value. -/
structure Action5 where
  navigate : Option NavVal := none
  hide : Option BoolOrFn := none
  message : Option String := none
  text : Option String := none
  full : Option BoolOrFn := none
  close : Option Bool := none
  closeWith : Option String := none
  menu : Option MenuReq := none
  update : Option Bool := none
  keepPreviousValue : Option Bool := none
  value : Val := none
  extra : Option (Option Unit) := none
deriving Repr, DecidableEq

/-- `isButtonActionResultLike` (helpers.ts 41-52): `navigate` of string or
number type, boolean `hide`/`full`/`close`, string `text`/`message`/`closeWith`,
or a defined `value`.  (A `menu`-only or function-valued-`hide` object is *not*
result-like.) -/
def actionResultLike (a : Action5) : Bool :=
  a.navigate.isSome ||
  (match a.hide with | some (.const _) => true | _ => false) ||
  a.text.isSome ||
  (match a.full with | some (.const _) => true | _ => false) ||
  a.message.isSome ||
  a.closeWith.isSome ||
  a.close.isSome ||
  a.value.isSome

structure DispatchState where
  button : ItemB
  menu : MenuCore
  dynamicMenuId : Option String := none
  vstack : VStack := {}
deriving Repr, DecidableEq

/-- Which menu a transport call acts on. -/
inductive MenuRef where
  | parentMenu
  | targetMenu
  | navTarget (t : NavVal)
  | dynMenu (id : String)
deriving Repr, DecidableEq

inductive Eff5 where
  | setMenuActive (m : MenuRef)
  | closeMenu (withText : String) (justRemoveMarkup : Bool)
  | deleteMenu
  | updateMenuContent (m : MenuRef)
deriving Repr, DecidableEq

/-- The outcome of `execButtonAction`: the early `false` of a non-result-like
value (579), the final `true` (736), the value stack returned by the value
section (733), or a propagated exception (the re-press TypeError of the
dynamic-menu branches; `execButtonAction` has no try/catch of its own). -/
inductive ExecRet where
  | execFail
  | execSuccess
  | stack (s : VStack)
  | thrown
deriving Repr, DecidableEq

/-- `setExtra` (menu-builder.ts 757-769), with the extra payload opaque. -/
def MenuCore.setExtra (m : MenuCore) (e : Option Unit) : MenuCore :=
  { m with extra := e }

/-- JS truthiness of the destructured `navigate` (`if (navigate)`, line 581):
`0` and `""` are falsy. -/
def navTruthy (a : Action5) : Bool :=
  match a.navigate with
  | some (.str s) => s ≠ ""
  | some (.num n) => n ≠ 0
  | none => false

/-- Lines 576-577: `button.setText(text).setHide(hide).setFull(full)` with the
destructuring defaults (absent fields default to the current values, making
the calls no-ops), then `button.parent.text = message`. -/
def applyResultSetters (a : Action5) (st : DispatchState) : DispatchState :=
  let text := a.text.getD st.button.text
  let hide := a.hide.getD (.const st.button.hidden)
  let full := a.full.getD (.const st.button.full)
  let message := a.message.getD st.menu.text
  let r1 := st.button.setTextM text
  let r2 := r1.1.setHideM hide
  let r3 := r2.1.setFullM full
  let menu1 := st.menu.applyOut ((r1.2.merge r2.2).merge r3.2)
  let menu2 := menu1.setTextProp message
  { st with button := r3.1, menu := menu2 }

/-- The request chain of `execButtonAction` (581-719), acting on the state
after the result setters ran; the last two booleans are `isValueAdded` and
whether the chain threw.  The dynamic-menu branches reproduce the re-press
crash of the source: with a previous dynamic menu attached, the explicit
`_detach` (628-631 / 661-665) empties the shared value stack (`splice(0)`,
menu-builder.ts 814) and voids the instance's registries (817-823); the
following `button['dynamicMenu'] = builtMenu` (639 / 689) re-runs `_detach`
through the setter (menu-item-builder.ts 27-31) on that voided instance, whose
first statement `delete this._menuById[this.id]` raises a TypeError — before
`_attach`, before any value push and before `setMenuActive`.  The button's
`_dynamicMenu` field is still the old instance when the setter throws. -/
def execBranch (navResolves : NavVal → Bool) (a : Action5)
    (st : DispatchState) (freshId : String) :
    DispatchState × List Eff5 × Bool × Bool :=
  let close := (a.close.getD false)
  let update := (a.update.getD false)
  let keep := (a.keepPreviousValue.getD true)
  if navTruthy a then
    match a.navigate with
    | some t =>
      if navResolves t then
        (st, [Eff5.setMenuActive (MenuRef.navTarget t)], false, false)
      else (st, [], false, false)
    | none => (st, [], false, false)
  else if close || a.closeWith.isSome then
    let closeMessage : String :=
      match a.closeWith with
      | some cw => if cw ≠ "" then jsTrim cw else ""
      | none => ""
    if closeMessage ≠ "" then
      let justMarkup := st.menu.text = closeMessage
      (st, [Eff5.closeMenu closeMessage justMarkup, Eff5.deleteMenu],
       false, false)
    else
      (st, [Eff5.closeMenu "" false, Eff5.deleteMenu], false, false)
  else
    match a.menu with
    | some (MenuReq.obj idGiven) =>
      if st.dynamicMenuId.isSome then
        -- 626-630 detached the previous instance, splicing the shared
        -- stack; line 639 then throws in the dynamicMenu setter
        ({ st with vstack := st.vstack.spliceAll }, [], false, true)
      else
        -- 633-649: build the layout (`fromObject`), attach, and if keeping
        -- values, `pushValue(button.id, value)`
        let newId := idGiven.getD freshId
        let stack2 := if keep then st.vstack.pushValue st.button.id a.value
                      else st.vstack
        ({ st with dynamicMenuId := some newId, vstack := stack2 },
         [Eff5.setMenuActive (MenuRef.dynMenu newId)], keep, false)
    | some MenuReq.fn =>
      let ctxId := st.dynamicMenuId.getD freshId
      if st.dynamicMenuId.isSome then
        -- 661-665 detached the previous instance, splicing the shared
        -- stack; line 689 then throws in the dynamicMenu setter
        ({ st with vstack := st.vstack.spliceAll }, [], false, true)
      else
        -- 666-698: build from the function's layout under the context id,
        -- attach, and if keeping values, a plain `push(value)`
        let stack2 := if keep then st.vstack.pushItem a.value else st.vstack
        ({ st with dynamicMenuId := some ctxId, vstack := stack2 },
         [Eff5.setMenuActive (MenuRef.dynMenu ctxId)], keep, false)
    | none =>
      if update then
        ({ st with menu := { st.menu with changeFlags := ChangeUpdate } },
         [Eff5.setMenuActive MenuRef.targetMenu], false, false)
      else if st.menu.changeFlags &&& ChangeText = ChangeText then
        let m := match a.extra with
          | some e => st.menu.setExtra e
          | none => st.menu
        ({ st with menu := m }, [Eff5.setMenuActive MenuRef.parentMenu],
         false, false)
      else if st.menu.changeFlags ≠ 0 then
        (st, [Eff5.setMenuActive MenuRef.targetMenu], false, false)
      else if st.button.changeFlags ≠ 0 then
        (st, [Eff5.updateMenuContent MenuRef.parentMenu], false, false)
      else (st, [], false, false)
/-- `execButtonAction` (callback-handler.ts 557-735).  Returns the new state,
the transport effects in order, and the outcome — including the propagated
TypeError of a throwing branch, which skips the value section (721-734).
`freshId` stands for the `nanoid` drawn for a dynamic menu when the button
holds none yet. -/
def execButtonAction5 (navResolves : NavVal → Bool) (a : Action5)
    (st0 : DispatchState) (freshId : String) :
    DispatchState × List Eff5 × ExecRet :=
  if !actionResultLike a then (st0, [], ExecRet.execFail)
  else
    let keep := (a.keepPreviousValue.getD true)
    let st := applyResultSetters a st0
    let branch := execBranch navResolves a st freshId
    let st1 := branch.1
    let effs := branch.2.1
    let isValueAdded := branch.2.2.1
    if branch.2.2.2 then (st1, effs, ExecRet.thrown)
    else
      -- the value section (721-734)
      match a.value with
      | some v =>
        let st2 := if keep && !isValueAdded then
            { st1 with vstack := st1.vstack.pushValue st1.button.id (some v) }
          else st1
        (st2, effs, ExecRet.stack st2.vstack)
      | none => (st1, effs, ExecRet.execSuccess)

theorem setTextProp_path (m : MenuCore) (tv : String) :
    (m.setTextProp tv).path = m.path := by
  simp only [MenuCore.setTextProp]
  repeat' split
  all_goals rfl

/-- The result setters of lines 576-577 touch only the button's fields, the
menu's text and the change bitsets: the menu's path, the dynamic-menu id and
the value stack pass through unchanged. -/
theorem applyResultSetters_shell (a : Action5) (st : DispatchState) :
    (applyResultSetters a st).menu.path = st.menu.path ∧
    (applyResultSetters a st).vstack = st.vstack ∧
    (applyResultSetters a st).dynamicMenuId = st.dynamicMenuId := by
  refine ⟨?_, rfl, rfl⟩
  show ((st.menu.applyOut _).setTextProp _).path = st.menu.path
  rw [setTextProp_path]
  rfl

inductive Req5 where
  | navigate
  | close
  | attachMenu
  | forceRebuild
deriving Repr, DecidableEq

/-- The amended priority chain: which of the four requests the dispatcher
honors, with the code's truthiness conditions (`navigate` must be a non-zero
number or non-empty string; `close` is truthy `close` or a string `closeWith`;
`attach` is a `menu` object or function; `force-rebuild` is truthy `update`). -/
def honoredRequest (a : Action5) : Option Req5 :=
  if navTruthy a = true then some Req5.navigate
  else if (a.close.getD false || a.closeWith.isSome) = true then some Req5.close
  else if a.menu.isSome = true then some Req5.attachMenu
  else if (a.update.getD false) = true then some Req5.forceRebuild
  else none

theorem honoredRequest_inv (a : Action5) :
    (honoredRequest a = some Req5.navigate → navTruthy a = true) ∧
    (honoredRequest a = some Req5.close → navTruthy a = false ∧
      (a.close.getD false || a.closeWith.isSome) = true) ∧
    (honoredRequest a = some Req5.attachMenu → navTruthy a = false ∧
      (a.close.getD false || a.closeWith.isSome) = false ∧ a.menu.isSome = true) ∧
    (honoredRequest a = some Req5.forceRebuild → navTruthy a = false ∧
      (a.close.getD false || a.closeWith.isSome) = false ∧ a.menu = none ∧
      (a.update.getD false) = true) ∧
    (honoredRequest a = none → navTruthy a = false ∧
      (a.close.getD false || a.closeWith.isSome) = false ∧ a.menu = none ∧
      (a.update.getD false) = false) := by
  by_cases h1 : navTruthy a = true <;>
    by_cases h2 : (a.close.getD false || a.closeWith.isSome) = true <;>
      by_cases h3 : a.menu.isSome = true <;>
        by_cases h4 : (a.update.getD false) = true <;>
          simp_all [honoredRequest, Option.not_isSome_iff_eq_none]

/-- The effect list of `execButtonAction` is the effect list of the request
chain (the value section 721-734 adds no transport call). -/
theorem exec5_effs (navResolves : NavVal → Bool) (a : Action5)
    (st0 : DispatchState) (freshId : String)
    (hlike : actionResultLike a = true) :
    (execButtonAction5 navResolves a st0 freshId).2.1
      = (execBranch navResolves a (applyResultSetters a st0) freshId).2.1 := by
  cases hv : a.value <;> simp only [execButtonAction5, hlike, hv,
    Bool.not_true, Bool.false_eq_true, if_false] <;> split <;> rfl

/-- Claim C5 (amended): for every result-like action, at most one of
{navigate, close, attach-new-menu, force-rebuild} is honored, checked in that
priority order and with the code's truthiness conditions.  The attach request
completes — one `setMenuActive` on the new dynamic menu — only when the button
holds no previously attached dynamic menu; when one is attached, the dispatch
throws a TypeError (second `_detach` through the `dynamicMenu` setter on the
already-voided instance) before any transport call.  When no request applies
the dispatcher re-renders the acting button's parent menu if its text changed,
else re-renders the target menu if its bitset is non-zero, else patches only
the keyboard if the acting button's bitset is non-zero, else makes no
transport call. -/
theorem C5_priority_and_fallback (navResolves : NavVal → Bool) (a : Action5)
    (st0 : DispatchState) (freshId : String)
    (hlike : actionResultLike a = true) :
    (honoredRequest a = some Req5.navigate →
       ∃ t, a.navigate = some t ∧
         (execButtonAction5 navResolves a st0 freshId).2.1
           = (if navResolves t then [Eff5.setMenuActive (MenuRef.navTarget t)]
              else [])) ∧
    (honoredRequest a = some Req5.close →
       ∃ msg jm, (execButtonAction5 navResolves a st0 freshId).2.1
         = [Eff5.closeMenu msg jm, Eff5.deleteMenu]) ∧
    (honoredRequest a = some Req5.attachMenu →
       (st0.dynamicMenuId = none →
         ∃ i, (execButtonAction5 navResolves a st0 freshId).2.1
             = [Eff5.setMenuActive (MenuRef.dynMenu i)] ∧
           (execButtonAction5 navResolves a st0 freshId).2.2
             ≠ ExecRet.thrown) ∧
       (st0.dynamicMenuId.isSome = true →
         (execButtonAction5 navResolves a st0 freshId).2.1 = [] ∧
         (execButtonAction5 navResolves a st0 freshId).2.2
           = ExecRet.thrown)) ∧
    (honoredRequest a = some Req5.forceRebuild →
       (execButtonAction5 navResolves a st0 freshId).2.1
         = [Eff5.setMenuActive MenuRef.targetMenu]) ∧
    (honoredRequest a = none →
       (execButtonAction5 navResolves a st0 freshId).2.1
         = (if (applyResultSetters a st0).menu.changeFlags &&& ChangeText
              = ChangeText then [Eff5.setMenuActive MenuRef.parentMenu]
            else if (applyResultSetters a st0).menu.changeFlags ≠ 0 then
              [Eff5.setMenuActive MenuRef.targetMenu]
            else if (applyResultSetters a st0).button.changeFlags ≠ 0 then
              [Eff5.updateMenuContent MenuRef.parentMenu]
            else [])) := by
  have heffs := exec5_effs navResolves a st0 freshId hlike
  refine ⟨?_, ?_, ?_, ?_, ?_⟩
  · intro h
    have hnav := (honoredRequest_inv a).1 h
    cases hv : a.navigate with
    | none => rw [navTruthy, hv] at hnav; simp at hnav
    | some t =>
      refine ⟨t, rfl, ?_⟩
      rw [heffs]
      by_cases hr : navResolves t <;>
        simp [execBranch, hnav, hv, hr]
  · intro h
    obtain ⟨hnav, hclose⟩ := (honoredRequest_inv a).2.1 h
    rw [heffs]
    simp only [execBranch, hnav, hclose, Bool.false_eq_true, if_false, if_true]
    split
    · exact ⟨_, _, rfl⟩
    · exact ⟨_, _, rfl⟩
  · intro h
    obtain ⟨hnav, hclose, hmenu⟩ := (honoredRequest_inv a).2.2.1 h
    have hsh := applyResultSetters_shell a st0
    constructor
    · intro hd0
      have hdyn' : (applyResultSetters a st0).dynamicMenuId = none := by
        rw [hsh.2.2, hd0]
      cases hm : a.menu with
      | none => rw [hm] at hmenu; simp at hmenu
      | some req =>
        cases req with
        | obj idGiven =>
          refine ⟨idGiven.getD freshId, ?_, ?_⟩
          · rw [heffs]
            simp [execBranch, hnav, hclose, hm, hdyn']
          · cases hv : a.value <;>
              simp [execButtonAction5, execBranch, hlike, hv, hnav, hclose,
                hm, hdyn']
        | fn =>
          refine ⟨freshId, ?_, ?_⟩
          · rw [heffs]
            simp [execBranch, hnav, hclose, hm, hdyn']
          · cases hv : a.value <;>
              simp [execButtonAction5, execBranch, hlike, hv, hnav, hclose,
                hm, hdyn']
    · intro hd1
      obtain ⟨d, hd⟩ := Option.isSome_iff_exists.mp hd1
      have hdyn' : (applyResultSetters a st0).dynamicMenuId = some d := by
        rw [hsh.2.2, hd]
      cases hm : a.menu with
      | none => rw [hm] at hmenu; simp at hmenu
      | some req =>
        cases req <;> refine ⟨?_, ?_⟩ <;>
          simp [execButtonAction5, execBranch, hlike, hnav, hclose, hm, hdyn']
  · intro h
    obtain ⟨hnav, hclose, hmenu, hupd⟩ := (honoredRequest_inv a).2.2.2.1 h
    rw [heffs]
    simp [execBranch, hnav, hclose, hmenu, hupd]
  · intro h
    obtain ⟨hnav, hclose, hmenu, hupd⟩ := (honoredRequest_inv a).2.2.2.2 h
    rw [heffs]
    simp only [execBranch, hnav, hclose, hmenu, hupd, Bool.false_eq_true,
      Bool.or_self, if_false]
    repeat' split
    all_goals rfl

def actC5nav : Action5 := { navigate := some (NavVal.num 2) }

def stC5 : DispatchState :=
  { button := mkItem "btn" "b1",
    menu := { text := "m", id := "r", path := "/r/", changeFlags := 0 } }

/-- Witness for C5: a plain `navigate: 2` action yields exactly one
`setMenuActive` of the resolved target. -/
theorem C5_priority_and_fallback_witness :
    actionResultLike actC5nav = true ∧
    honoredRequest actC5nav = some Req5.navigate ∧
    (execButtonAction5 (fun _ => true) actC5nav stC5 "f").2.1
      = [Eff5.setMenuActive (MenuRef.navTarget (NavVal.num 2))] := by
  refine ⟨by decide, by decide, ?_⟩
  obtain ⟨t, ht, heq⟩ := (C5_priority_and_fallback (fun _ => true) actC5nav stC5
    "f" (by decide)).1 (by decide)
  rw [show actC5nav.navigate = some (NavVal.num 2) from rfl] at ht
  injection ht with ht2
  rw [← ht2] at heq
  simpa using heq

/-- Counterexample to C5 as stated: the action `{ navigate: 0, close: true }`
carries a navigate request of a valid type (the number 0, the root's index),
yet the dispatcher honors the close request — `if (navigate)` treats the falsy
value 0 as no request, so presence alone does not win the priority. -/
theorem C5_counterexample :
    actionResultLike { navigate := some (NavVal.num 0), close := some true } = true ∧
    (execButtonAction5 (fun _ => true)
        { navigate := some (NavVal.num 0), close := some true } stC5 "f").2.1
      = [Eff5.closeMenu "" false, Eff5.deleteMenu] ∧
    (execButtonAction5 (fun _ => true)
        { navigate := some (NavVal.num 0), close := some true } stC5 "f").2.1
      ≠ [Eff5.setMenuActive (MenuRef.navTarget (NavVal.num 0))] := by
  refine ⟨by decide, by decide, by decide⟩

/-- Claim C6 (amended): a dynamic rebuild through the menu-function branch
with a previously attached instance never completes.  The explicit `_detach`
(663) empties the shared value-stack array (`splice(0)`, menu-builder.ts 814)
and voids the instance's registries; the reattach assignment (689) then
throws a TypeError in the `dynamicMenu` setter — before `_attach`, before
the value push and before any transport call.  What survives is exactly the
identity and the named properties: the button still references the old
dynamic-menu id `d` (so the path formula `parent.path + id + '/'` is
unchanged), the parent menu's own path is untouched, and every named
`pushValue` entry is still retrievable — but the stack array is empty
afterwards: the previously accumulated item is NOT still present, and no new
value was pushed. -/
theorem C6_dynamic_rebuild_preserves (navResolves : NavVal → Bool)
    (a : Action5) (st : DispatchState) (freshId d : String)
    (hlike : actionResultLike a = true)
    (hdyn : st.dynamicMenuId = some d)
    (hmenu : a.menu = some MenuReq.fn)
    (hnav : navTruthy a = false)
    (hclose : (a.close.getD false || a.closeWith.isSome) = false) :
    (execButtonAction5 navResolves a st freshId).2.2 = ExecRet.thrown ∧
    (execButtonAction5 navResolves a st freshId).2.1 = [] ∧
    (execButtonAction5 navResolves a st freshId).1.dynamicMenuId = some d ∧
    (execButtonAction5 navResolves a st freshId).1.menu.path = st.menu.path ∧
    (execButtonAction5 navResolves a st freshId).1.vstack.named
      = st.vstack.named ∧
    (execButtonAction5 navResolves a st freshId).1.vstack.items = [] := by
  have hsh := applyResultSetters_shell a st
  have hdyn' : (applyResultSetters a st).dynamicMenuId = some d := by
    rw [hsh.2.2, hdyn]
  refine ⟨?_, ?_, ?_, ?_, ?_, ?_⟩ <;>
    simp [execButtonAction5, execBranch, hlike, hnav, hclose, hmenu,
      hdyn', hsh.1, hsh.2.1, VStack.spliceAll]

def stDyn : DispatchState :=
  { button := mkItem "btn" "b1",
    menu := { text := "m", id := "r", path := "/r/", changeFlags := 0 },
    dynamicMenuId := some "dy",
    vstack := { items := [some "L"], named := [("chooseSize", some "L")] } }

def actC6 : Action5 := { menu := some MenuReq.fn, value := some "v2" }

/-- Witness for C6: a button whose attached dynamic menu "dy" previously
received `pushValue("chooseSize","L")` is re-pressed; the dispatch throws, no
transport call is made, the button still references "dy", the parent path and
the named entry survive, and the stack array is empty. -/
theorem C6_dynamic_rebuild_preserves_witness :
    (execButtonAction5 (fun _ => false) actC6 stDyn "fresh").2.2
      = ExecRet.thrown ∧
    (execButtonAction5 (fun _ => false) actC6 stDyn "fresh").2.1 = [] ∧
    (execButtonAction5 (fun _ => false) actC6 stDyn "fresh").1.dynamicMenuId
      = some "dy" ∧
    (execButtonAction5 (fun _ => false) actC6 stDyn "fresh").1.menu.path
      = stDyn.menu.path ∧
    (execButtonAction5 (fun _ => false) actC6 stDyn "fresh").1.vstack.named
      = stDyn.vstack.named ∧
    (execButtonAction5 (fun _ => false) actC6 stDyn "fresh").1.vstack.items
      = [] :=
  C6_dynamic_rebuild_preserves (fun _ => false) actC6 stDyn "fresh" "dy"
    (by decide) (by decide) (by decide) (by decide) (by decide)

/-- Counterexample to C6 as stated: the entry `some "L"` sat on the shared
value stack before the re-press rebuild; `_detach` splices the stack and the
reattach assignment then throws, so afterwards the stack array is empty — the
accumulated entry is not "still present and retrievable from the reattached
replacement", and the freshly generated replacement was never attached at
all. -/
theorem C6_counterexample :
    (some "L") ∈ stDyn.vstack.items ∧
    (execButtonAction5 (fun _ => false) actC6 stDyn "fresh").1.vstack.items
      = [] ∧
    ¬ (some "L") ∈
      (execButtonAction5 (fun _ => false) actC6 stDyn "fresh").1.vstack.items ∧
    (execButtonAction5 (fun _ => false) actC6 stDyn "fresh").2.2
      = ExecRet.thrown := by
  refine ⟨by decide, by decide, by decide, by decide⟩

/-! ## `onCallbackQuery` and the close flow (callback-handler.ts 119-196,
605-622, 206-230) -/

/-- `delete previous[id]` (deleteMenu, 223-230). -/
def eraseKey (d : List (JStr × Nat)) (k : JStr) : List (JStr × Nat) :=
  d.filter (fun p => p.1 ≠ k)

/-- The dispatcher state: the menu tree, the per-keeper dictionary
`_menuMap.get(_keeper)` keyed by menu id (`registerMenu`, 206-213), and the
`_activeMenu` reference. -/
structure HandlerState where
  tree : MTree
  menuDict : List (JStr × Nat)
  activeMenu : Option Nat := none
deriving Repr, DecidableEq

/-- The lookup of `onCallbackQuery` (133-141): split the callback data on
slashes, drop the segment before the leading slash, take the first remaining
segment as the menu id, fetch the registered menu from the dictionary and
resolve the WHOLE data string against it with `getMenuItemByPath`.  Returns
the dictionary menu's index with the button's owner index and id. -/
def lookupEvent (s : HandlerState) (data : JStr) :
    Option (Nat × Nat × JStr) :=
  match (splitOnChar '/' data).drop 1 with
  | [] => none
  | menuId :: _ =>
    match lookupFirst s.menuDict menuId with
    | none => none
    | some m =>
      match getMenuItemByPath s.tree m data with
      | none => none
      | some b => some (m, b.1, b.2)

/-- Observable handler effects: the unhandled-query hook (139, 128),
`ctx.deleteMessage` issued by `closeMenu` with no text (398-403), and the run
of the resolved button's close action. -/
inductive CbEff where
  | unhandledHook
  | deleteMessage
  | execClose (ownerIdx : Nat) (buttonId : JStr)
deriving Repr, DecidableEq

/-- One `onCallbackQuery` round for an event whose button action returns
`{ close: true }`: a failed lookup only fires the unhandled hook (139-141);
otherwise the close branch of `execButtonAction` (617-621) runs
`closeMenu(ctx, '')` — which deletes the message and clears `activeMenu`
(398-407) — and then `deleteMenu(button.parent)`, erasing the PARENT menu's id
from the dictionary (223-230). -/
def processCloseEvent (s : HandlerState) (data : JStr) :
    HandlerState × List CbEff :=
  match lookupEvent s data with
  | none => (s, [CbEff.unhandledHook])
  | some (_, ownerIdx, btnId) =>
    let parentId := match s.tree.nodes.get? ownerIdx with
      | some n => n.id
      | none => []
    ({ s with activeMenu := none, menuDict := eraseKey s.menuDict parentId },
     [CbEff.execClose ownerIdx btnId, CbEff.deleteMessage])

theorem lookupFirst_eraseKey (d : List (JStr × Nat)) (k : JStr) :
    lookupFirst (eraseKey d k) k = none := by
  induction d with
  | nil => rfl
  | cons p rest ih =>
    obtain ⟨k', v⟩ := p
    by_cases h : k' = k
    · simpa [eraseKey, List.filter_cons, h] using ih
    · simpa [eraseKey, List.filter_cons, h, lookupFirst] using ih

/-- Claim C8 (amended): when the resolved button's OWNING menu is the one the
dictionary registers under the event's first path segment, a `{ close: true }`
dispatch clears the active-menu reference, invokes the transport's message
removal, erases that dictionary key, and a second identical event is treated
as unhandled: only the unhandled-query hook fires and the state is unchanged.
(When the button's owner is a deeper submenu, `deleteMenu(button.parent)`
erases a key that was never registered and the second event re-executes — see
the counterexample.) -/
theorem C8_close_then_unhandled (s : HandlerState) (data menuId : JStr)
    (rest : List JStr) (m owner : Nat) (bid : JStr) (n : MNode)
    (hseg : (splitOnChar '/' data).drop 1 = menuId :: rest)
    (hdict : lookupFirst s.menuDict menuId = some m)
    (hbtn : getMenuItemByPath s.tree m data = some (owner, bid))
    (hnode : s.tree.nodes.get? owner = some n)
    (hid : n.id = menuId) :
    (processCloseEvent s data).2
      = [CbEff.execClose owner bid, CbEff.deleteMessage] ∧
    (processCloseEvent s data).1.activeMenu = none ∧
    lookupFirst (processCloseEvent s data).1.menuDict menuId = none ∧
    (processCloseEvent (processCloseEvent s data).1 data).2
      = [CbEff.unhandledHook] ∧
    (processCloseEvent (processCloseEvent s data).1 data).1
      = (processCloseEvent s data).1 := by
  have h1 : lookupEvent s data = some (m, owner, bid) := by
    simp [lookupEvent, hseg, hdict, hbtn]
  have hkey : lookupFirst (eraseKey s.menuDict menuId) menuId = none :=
    lookupFirst_eraseKey _ _
  have h2 :
      lookupEvent
        { s with activeMenu := none, menuDict := eraseKey s.menuDict menuId }
        data = none := by
    simp [lookupEvent, hseg, hkey]
  have hnode' : s.tree.nodes[owner]? = some n := by
    simpa [List.get?_eq_getElem?] using hnode
  refine ⟨?_, ?_, ?_, ?_, ?_⟩ <;>
    simp [processCloseEvent, h1, h2, hnode', hid, hkey]

def rootC8 : MNode :=
  { id := "r".toList, text := "R".toList, parent := none, root := 0,
    pathOverride := none, buttons := ["c".toList] }

def subC8 : MNode :=
  { id := "s".toList, text := "S".toList, parent := some 0, root := 0,
    pathOverride := none, buttons := ["b".toList] }

def treeC8 : MTree :=
  { nodes := [rootC8, subC8],
    menuById := [("r".toList, 0), ("s".toList, 1)],
    menuByPath := [("/r/".toList, 0), ("/r/s/".toList, 1)] }

def stC8 : HandlerState :=
  { tree := treeC8, menuDict := [("r".toList, 0)], activeMenu := some 0 }

/-- Witness for C8: a close on the ROOT's own button "c" (data `/r/c`) deletes
the registered key "r", so the identical second event only fires the
unhandled hook. -/
theorem C8_close_then_unhandled_witness :
    (processCloseEvent stC8 "/r/c".toList).2
      = [CbEff.execClose 0 "c".toList, CbEff.deleteMessage] ∧
    (processCloseEvent stC8 "/r/c".toList).1.activeMenu = none ∧
    (processCloseEvent (processCloseEvent stC8 "/r/c".toList).1
        "/r/c".toList).2 = [CbEff.unhandledHook] :=
  have h := C8_close_then_unhandled stC8 "/r/c".toList "r".toList
    ["c".toList] 0 0 "c".toList rootC8 (by decide) (by decide) (by decide)
    (by decide) (by decide)
  ⟨h.1, h.2.1, h.2.2.2.1⟩

/-- Counterexample to C8 as stated: the acting button "b" sits on the submenu
"s" of the registered root "r".  Its close action runs
`deleteMenu(button.parent)`, which erases the key "s" — a key the dictionary
never held, since only "r" was registered.  The dictionary is unchanged and a
second identical event `/r/s/b` resolves again and re-executes the action
instead of being unhandled. -/
theorem C8_counterexample :
    (processCloseEvent stC8 "/r/s/b".toList).2
      = [CbEff.execClose 1 "b".toList, CbEff.deleteMessage] ∧
    (processCloseEvent stC8 "/r/s/b".toList).1.menuDict = stC8.menuDict ∧
    (processCloseEvent (processCloseEvent stC8 "/r/s/b".toList).1
        "/r/s/b".toList).2
      = [CbEff.execClose 1 "b".toList, CbEff.deleteMessage] ∧
    (processCloseEvent (processCloseEvent stC8 "/r/s/b".toList).1
        "/r/s/b".toList).2 ≠ [CbEff.unhandledHook] := by
  refine ⟨by decide, by decide, by decide, by decide⟩

end TgMenu
